import Mathlib

/-! Blog-post CRUD service: the HTTP handlers of `server.js` over a model of the `posts`
table.

The handlers of `src/server.js` are embedded as pure functions from the request and the
table content to the response and the new table content.  The SQLite statements the
handlers issue are interpreted by small functions (`dbAll`, `dbGet`, `dbRunInsert`,
`dbRunUpdate`, `dbRunDelete`, `dbAllCategories`) that follow SQLite's documented
behaviour for exactly those statements.

Modelling decisions on the storage side:
* `createdAt` / `updatedAt` hold the text `datetime('now')` produced; it is represented by
  the number of seconds it denotes, so that text order is numeric order.
* a storage failure (the `err` argument of a callback) is an input `fault` of the call.
* the `:id` route parameter is compared by SQLite with an INTEGER PRIMARY KEY column; it
  is given as the row id its text spells, or `none` when it spells no row id.

The client `PostManager` of `src/post.js` is embedded as functions on its fields
(`posts`, `currentEditId`, `apiBaseUrl`) that also return the `fetch` calls made, with
`fetch` an input function, and as functions that build the markup strings.  The page
content (form, list, notifications) is not part of the client state, and the browser's
date formatting is an input of the markup functions.
-/

namespace PostServer

/-! ## JavaScript values of a request -/

/-- A value found in `req.body` or `req.query`.  An array or object is represented by the
text its `toString()` yields, which is all the handlers use of it. -/
inductive JsVal where
  | undefined
  | null
  | bool (b : Bool)
  | num (n : Int)
  | str (s : String)
  | object (text : String)
  deriving DecidableEq

/-- JavaScript truthiness, as tested by `!v`, `v || w` and `if (v)`. -/
def JsVal.truthy : JsVal → Bool
  | .undefined => false
  | .null => false
  | .bool b => b
  | .num n => n != 0
  | .str s => s != ""
  | .object _ => true

/-- The string a template literal inserts for a value. -/
def JsVal.toText : JsVal → String
  | .undefined => "undefined"
  | .null => "null"
  | .bool b => if b then "true" else "false"
  | .num n => toString n
  | .str s => s
  | .object t => t

/-- The JavaScript expression `a || b`. -/
def jsOr (a b : JsVal) : JsVal := if a.truthy then a else b

/-- The value a bound parameter has once SQLite gives it TEXT affinity: `none` is NULL.
The `sqlite3` binding layer leaves `undefined` unbound, binds `null` as NULL, a boolean as
the integer 1 or 0, a number as itself, a string as text, and every array or other object as
the fixed text `[object Object]`. -/
def JsVal.bindText : JsVal → Option String
  | .undefined => none
  | .null => none
  | .bool b => some (if b then "1" else "0")
  | .num n => some (toString n)
  | .str s => some s
  | .object _ => some "[object Object]"

/-! ## The `posts` table -/

/-- One row of `posts`.  `tags` is the only nullable text column. -/
structure Post where
  id : Nat
  title : String
  content : String
  authorId : String
  category : String
  tags : Option String
  createdAt : Nat
  updatedAt : Nat
  deriving DecidableEq

/-- The database: the rows of `posts` in scan order and the `sqlite_sequence` entry that
`AUTOINCREMENT` keeps for the table (the largest row id ever assigned). -/
structure Db where
  posts : List Post
  seq : Nat
  deriving DecidableEq

/-- The body of a JSON response. -/
inductive Body where
  | posts (rows : List Post)
  | post (row : Option Post)
  | error (msg : String)
  | message (msg : String)
  | strings (xs : List String)
  deriving DecidableEq

/-- An HTTP response: `res.status(s).json(b)`; `res.json(b)` has status 200. -/
structure Response where
  status : Nat
  body : Body
  deriving DecidableEq

/-! ## SQLite's `LIKE` -/

/-- SQLite's `X LIKE P` on texts: `%` in the pattern matches any run of characters, `_`
matches any one character, any other character matches itself up to ASCII case. -/
def likeChars : List Char → List Char → Bool
  | [], s => s.isEmpty
  | c :: p, s =>
    if c = '%' then s.tails.any (fun t => likeChars p t)
    else
      match s with
      | [] => false
      | d :: s' => (c = '_' || c.toLower = d.toLower) && likeChars p s'

/-- `X LIKE P` with NULL operands: a NULL on either side gives NULL, which selects no row. -/
def sqlLike (x p : Option String) : Bool :=
  match x, p with
  | some x, some p => likeChars p.toList x.toList
  | _, _ => false

/-- `ORDER BY createdAt DESC`: the rows by decreasing `createdAt`. -/
def orderByCreatedAtDesc (rows : List Post) : List Post :=
  rows.insertionSort (fun a b => b.createdAt ≤ a.createdAt)

/-- `db.all(query, params, cb)` for the statements `GET /api/posts` can build: the callback
receives the error or the selected rows.  Each statement is run with as many parameters as
it has `?` marks; any other text or parameter count is answered with an error. -/
def dbAll (fault : Option String) (rows : List Post) (query : String)
    (params : List (Option String)) : Except String (List Post) :=
  match fault with
  | some e => .error e
  | none =>
    if query = "SELECT * FROM posts ORDER BY createdAt DESC" then
      match params with
      | [] => .ok (orderByCreatedAtDesc rows)
      | _ => .error "SQLITE_RANGE: column index out of range"
    else if query = "SELECT * FROM posts WHERE (title LIKE ? OR content LIKE ? OR tags LIKE ?) ORDER BY createdAt DESC" then
      match params with
      | [a, b, c] =>
        .ok (orderByCreatedAtDesc (rows.filter fun r =>
          sqlLike (some r.title) a || sqlLike (some r.content) b || sqlLike r.tags c))
      | _ => .error "SQLITE_RANGE: column index out of range"
    else if query = "SELECT * FROM posts WHERE category = ? ORDER BY createdAt DESC" then
      match params with
      | [d] => .ok (orderByCreatedAtDesc (rows.filter fun r => some r.category = d))
      | _ => .error "SQLITE_RANGE: column index out of range"
    else if query = "SELECT * FROM posts WHERE (title LIKE ? OR content LIKE ? OR tags LIKE ?) AND category = ? ORDER BY createdAt DESC" then
      match params with
      | [a, b, c, d] =>
        .ok (orderByCreatedAtDesc (rows.filter fun r =>
          (sqlLike (some r.title) a || sqlLike (some r.content) b || sqlLike r.tags c)
            && decide (some r.category = d)))
      | _ => .error "SQLITE_RANGE: column index out of range"
    else .error "SQLITE_ERROR: syntax error"

/-! ## `GET /api/posts` -/

/-- The query text and parameter list that `app.get('/api/posts')` assembles. -/
def buildListQuery (search category : JsVal) : String × List (Option String) :=
  let query := "SELECT * FROM posts"
  let params : List (Option String) := []
  let (query, params) :=
    if search.truthy || category.truthy then
      let query := query ++ " WHERE"
      let (query, params) :=
        if search.truthy then
          let query := query ++ " (title LIKE ? OR content LIKE ? OR tags LIKE ?)"
          let searchTerm := "%" ++ search.toText ++ "%"
          (query, params ++ [some searchTerm, some searchTerm, some searchTerm])
        else (query, params)
      if category.truthy then
        let query := if search.truthy then query ++ " AND" else query
        let query := query ++ " category = ?"
        (query, params ++ [category.bindText])
      else (query, params)
    else (query, params)
  (query ++ " ORDER BY createdAt DESC", params)

/-- The handler `app.get('/api/posts')`. -/
def getPosts (db : Db) (fault : Option String) (search category : JsVal) : Response :=
  let qp := buildListQuery search category
  match dbAll fault db.posts qp.1 qp.2 with
  | .error e => ⟨500, .error e⟩
  | .ok rows => ⟨200, .posts rows⟩

/-! ## `GET /api/posts/:id` -/

/-- `db.get('SELECT * FROM posts WHERE id = ?', [id], cb)`: the callback receives the error,
or the first row whose `id` is the parameter, or no row. -/
def dbGet (fault : Option String) (rows : List Post) (id : Option Nat) :
    Except String (Option Post) :=
  match fault with
  | some e => .error e
  | none =>
    match id with
    | none => .ok none
    | some i => .ok (rows.find? fun r => r.id == i)

/-- The handler `app.get('/api/posts/:id')`. -/
def getPostById (db : Db) (fault : Option String) (id : Option Nat) : Response :=
  match dbGet fault db.posts id with
  | .error e => ⟨500, .error e⟩
  | .ok none => ⟨404, .error "Post not found"⟩
  | .ok (some row) => ⟨200, .post (some row)⟩

/-! ## `POST /api/posts` -/

/-- The fields a handler destructures from `req.body`; an absent field is `undefined`. -/
structure PostBody where
  title : JsVal
  content : JsVal
  authorId : JsVal
  category : JsVal
  tags : JsVal
  deriving DecidableEq

/-- The row id `AUTOINCREMENT` assigns next: one more than the largest of the row ids in the
table and the largest row id ever assigned. -/
def nextRowid (db : Db) : Nat :=
  db.posts.foldl (fun m r => max m r.id) db.seq + 1

/-- `db.run` of the `INSERT INTO posts (...) VALUES (?, ?, ?, ?, ?, datetime('now'),
datetime('now'))` statement at time `now`: the error, or the new database and `this.lastID`. -/
def dbRunInsert (fault : Option String) (db : Db) (now : Nat)
    (title content authorId category tags : Option String) : Except String (Db × Nat) :=
  match fault with
  | some e => .error e
  | none =>
    match title, content, authorId, category with
    | some t, some c, some a, some g =>
      let lastID := nextRowid db
      .ok (⟨db.posts ++ [⟨lastID, t, c, a, g, tags, now, now⟩], lastID⟩, lastID)
    | _, _, _, _ => .error "SQLITE_CONSTRAINT: NOT NULL constraint failed"

/-- The handler `app.post('/api/posts')`, run at time `now`; `fault1` and `fault2` are the
errors of its two database calls. -/
def createPost (db : Db) (now : Nat) (fault1 fault2 : Option String) (body : PostBody) :
    Response × Db :=
  if !body.title.truthy || !body.content.truthy || !body.authorId.truthy
      || !body.category.truthy then
    (⟨400, .error "Missing required fields"⟩, db)
  else
    match dbRunInsert fault1 db now body.title.bindText body.content.bindText
        body.authorId.bindText body.category.bindText (jsOr body.tags (.str "")).bindText with
    | .error e => (⟨500, .error e⟩, db)
    | .ok (db1, lastID) =>
      match dbGet fault2 db1.posts (some lastID) with
      | .error e => (⟨500, .error e⟩, db1)
      | .ok row => (⟨201, .post row⟩, db1)

/-! ## `PUT /api/posts/:id` -/

/-- `db.run` of the `UPDATE posts SET title = ?, content = ?, authorId = ?, category = ?,
tags = ?, updatedAt = datetime('now') WHERE id = ?` statement at time `now`: the error, or
the new database and `this.changes`. -/
def dbRunUpdate (fault : Option String) (db : Db) (now : Nat)
    (title content authorId category tags : Option String) (id : Option Nat) :
    Except String (Db × Nat) :=
  match fault with
  | some e => .error e
  | none =>
    match id with
    | none => .ok (db, 0)
    | some i =>
      let changes := db.posts.countP fun r => r.id == i
      if changes = 0 then .ok (db, 0)
      else
        match title, content, authorId, category with
        | some t, some c, some a, some g =>
          .ok ({ db with posts := db.posts.map fun r =>
                  if r.id == i then
                    { r with title := t, content := c, authorId := a, category := g,
                             tags := tags, updatedAt := now }
                  else r }, changes)
        | _, _, _, _ => .error "SQLITE_CONSTRAINT: NOT NULL constraint failed"

/-- The handler `app.put('/api/posts/:id')`, run at time `now`. -/
def updatePost (db : Db) (now : Nat) (fault1 fault2 : Option String) (id : Option Nat)
    (body : PostBody) : Response × Db :=
  if !body.title.truthy || !body.content.truthy || !body.authorId.truthy
      || !body.category.truthy then
    (⟨400, .error "Missing required fields"⟩, db)
  else
    match dbRunUpdate fault1 db now body.title.bindText body.content.bindText
        body.authorId.bindText body.category.bindText (jsOr body.tags (.str "")).bindText id with
    | .error e => (⟨500, .error e⟩, db)
    | .ok (db1, changes) =>
      if changes = 0 then (⟨404, .error "Post not found"⟩, db1)
      else
        match dbGet fault2 db1.posts id with
        | .error e => (⟨500, .error e⟩, db1)
        | .ok row => (⟨200, .post row⟩, db1)

/-! ## `DELETE /api/posts/:id` -/

/-- `db.run('DELETE FROM posts WHERE id = ?', [id], cb)`: the error, or the new database and
`this.changes`. -/
def dbRunDelete (fault : Option String) (db : Db) (id : Option Nat) :
    Except String (Db × Nat) :=
  match fault with
  | some e => .error e
  | none =>
    match id with
    | none => .ok (db, 0)
    | some i =>
      .ok ({ db with posts := db.posts.filter fun r => r.id != i },
           db.posts.countP fun r => r.id == i)

/-- The handler `app.delete('/api/posts/:id')`. -/
def deletePost (db : Db) (fault : Option String) (id : Option Nat) : Response × Db :=
  match dbRunDelete fault db id with
  | .error e => (⟨500, .error e⟩, db)
  | .ok (db1, changes) =>
    if changes = 0 then (⟨404, .error "Post not found"⟩, db1)
    else (⟨200, .message "Post deleted successfully"⟩, db1)

/-! ## `GET /api/categories` -/

/-- A row of `SELECT DISTINCT category FROM posts ORDER BY category`. -/
structure CategoryRow where
  category : String
  deriving DecidableEq

/-- `db.all('SELECT DISTINCT category FROM posts ORDER BY category', cb)`: the distinct
category texts in increasing order of the binary collation, which compares the character
sequences lexicographically. -/
def dbAllCategories (fault : Option String) (rows : List Post) :
    Except String (List CategoryRow) :=
  match fault with
  | some e => .error e
  | none =>
    .ok ((((rows.map fun r => r.category).dedup).insertionSort
      fun a b => a.toList ≤ b.toList).map CategoryRow.mk)

/-- The handler `app.get('/api/categories')`. -/
def getCategories (db : Db) (fault : Option String) : Response :=
  match dbAllCategories fault db.posts with
  | .error e => ⟨500, .error e⟩
  | .ok rows => ⟨200, .strings (rows.map fun row => row.category)⟩

/-! ## The specification's search condition -/

/-- Stated from the specification: `needle` occurs in `hay` as a substring when letter case
is ignored (ASCII letters, the case folding `LIKE` itself uses). -/
def containsIgnoreCase (needle hay : String) : Prop :=
  needle.toList.map Char.toLower <:+: hay.toList.map Char.toLower

instance (needle hay : String) : Decidable (containsIgnoreCase needle hay) := by
  unfold containsIgnoreCase; infer_instance

/-- Stated from the specification: the post's title, content or tags contains the search
string as a case-insensitive substring. -/
def specSearchCondition (s : String) (r : Post) : Prop :=
  containsIgnoreCase s r.title ∨ containsIgnoreCase s r.content ∨
    ∃ t, r.tags = some t ∧ containsIgnoreCase s t

instance (s : String) (r : Post) : Decidable (specSearchCondition s r) := by
  unfold specSearchCondition
  cases r.tags with
  | none => exact decidable_of_iff (containsIgnoreCase s r.title ∨ containsIgnoreCase s r.content) (by simp)
  | some t => exact decidable_of_iff (containsIgnoreCase s r.title ∨ containsIgnoreCase s r.content ∨ containsIgnoreCase s t) (by simp)

/-- The condition the code's search clause evaluates on a row for the search text `s`:
`title LIKE ? OR content LIKE ? OR tags LIKE ?` with each parameter `%s%`. -/
def searchClause (s : String) (r : Post) : Bool :=
  sqlLike (some r.title) (some ("%" ++ s ++ "%"))
    || sqlLike (some r.content) (some ("%" ++ s ++ "%"))
    || sqlLike r.tags (some ("%" ++ s ++ "%"))

/-! ## Order relations used by the two `ORDER BY` clauses -/

instance createdAtDesc_total : IsTotal Post (fun a b => b.createdAt ≤ a.createdAt) :=
  ⟨fun a b => Nat.le_total b.createdAt a.createdAt⟩

instance createdAtDesc_trans : IsTrans Post (fun a b => b.createdAt ≤ a.createdAt) :=
  ⟨fun _ _ _ hab hbc => Nat.le_trans hbc hab⟩

instance textLe_total : IsTotal String (fun a b => a.toList ≤ b.toList) :=
  ⟨fun a b => le_total a.toList b.toList⟩

instance textLe_trans : IsTrans String (fun a b => a.toList ≤ b.toList) :=
  ⟨fun _ _ _ hab hbc => le_trans hab hbc⟩

/-! ## Start-up: the listening port -/

/-- The part of `process.env` the server reads: `PORT` is `undefined` when the variable is
unset and a string when it is set. -/
structure ProcessEnv where
  PORT : JsVal
  deriving DecidableEq

/-- The constant `PORT` of `server.js`: `process.env.PORT || 3000`. -/
def PORT (env : ProcessEnv) : JsVal := jsOr env.PORT (.num 3000)

/-- The port the server listens on: the first argument of `app.listen(3000, ...)`. -/
def listenPort (_env : ProcessEnv) : JsVal := .num 3000

/-! ## Start-up: the sample data -/

/-- The constant `samplePosts` of `insertSampleData` in `server.js`. -/
def samplePosts : List PostBody :=
  [
    { title := .str "Getting Started with Web Development",
      content := .str "Web development is an exciting journey that combines creativity with technical skills. In this post, we'll explore the fundamentals of HTML, CSS, and JavaScript that every aspiring web developer should know. From creating your first webpage to understanding responsive design principles, this guide will set you on the path to becoming a proficient web developer.",
      authorId := .str "john_doe",
      category := .str "Digital and Tech",
      tags := .str "web development,programming,tutorial" },
    { title := .str "The Future of Artificial Intelligence",
      content := .str "Artificial Intelligence is rapidly transforming our world, from autonomous vehicles to smart home assistants. This technology is not just about robots; it's about creating systems that can learn, adapt, and make decisions. As we move forward, AI will continue to shape industries, create new opportunities, and challenge our understanding of what's possible.",
      authorId := .str "jane_smith",
      category := .str "Digital and Tech",
      tags := .str "AI,technology,future" }
  ]

/-- The function `insertSampleData`: every sample post is inserted with the `INSERT`
statement at time `now`; an insert that fails is logged and skipped. -/
def insertSampleData (db : Db) (now : Nat) : Db :=
  samplePosts.foldl (fun d post =>
    match dbRunInsert none d now post.title.bindText post.content.bindText
        post.authorId.bindText post.category.bindText post.tags.bindText with
    | .error _ => d
    | .ok (d1, _) => d1) db

/-- The function `checkAndInsertSampleData`: `SELECT COUNT(*) as count FROM posts`, and
the sample data is inserted when the count is 0; on a storage failure nothing is done. -/
def checkAndInsertSampleData (db : Db) (fault : Option String) (now : Nat) : Db :=
  match fault with
  | some _ => db
  | none => if db.posts.length = 0 then insertSampleData db now else db

/-! ## Sequences of requests -/

/-- A request that changes the table. -/
inductive ApiRequest where
  | create (body : PostBody)
  | update (id : Option Nat) (body : PostBody)
  | delete (id : Option Nat)
  deriving DecidableEq

/-- The routing of a request to its handler, at time `now`. -/
def serve (db : Db) (now : Nat) (fault1 fault2 : Option String) :
    ApiRequest → Response × Db
  | .create body => createPost db now fault1 fault2 body
  | .update id body => updatePost db now fault1 fault2 id body
  | .delete id => deletePost db fault1 id

/-- A request together with the time it is served at and the storage failures it meets. -/
structure Arrival where
  now : Nat
  fault1 : Option String
  fault2 : Option String
  request : ApiRequest
  deriving DecidableEq

/-- The table after the requests have been served one after the other. -/
def serveAll (db : Db) : List Arrival → Db
  | [] => db
  | a :: rest => serveAll (serve db a.now a.fault1 a.fault2 a.request).2 rest

/-- The clock does not go backwards: each request is served no earlier than the one before,
and the first no earlier than `start`. -/
def clockMonotone (start : Nat) : List Arrival → Prop
  | [] => True
  | a :: rest => start ≤ a.now ∧ clockMonotone a.now rest

/-- The required fields of a stored post are non-empty. -/
def Post.requiredNonEmpty (p : Post) : Prop :=
  p.title ≠ "" ∧ p.content ≠ "" ∧ p.authorId ≠ "" ∧ p.category ≠ ""

instance (p : Post) : Decidable p.requiredNonEmpty := by
  unfold Post.requiredNonEmpty; infer_instance

/-! ## The client: the markup built by `PostManager` of `post.js` -/

/-- The serialisation of one character of a text node, as `innerHTML` returns it: `&`, `<`,
`>` and the no-break space are written as character references. -/
def escapeChar (c : Char) : List Char :=
  if c = '&' then "&amp;".toList
  else if c = '<' then "&lt;".toList
  else if c = '>' then "&gt;".toList
  else if c = Char.ofNat 160 then "&nbsp;".toList
  else [c]

/-- The method `escapeHtml(text)`: the text is made the content of a fresh `div`, whose
`innerHTML` is returned. -/
def escapeHtml (text : String) : String :=
  ⟨text.toList.flatMap escapeChar⟩

/-- The pieces of `s.split(',')`. -/
def splitComma : List Char → List (List Char)
  | [] => [[]]
  | c :: cs =>
    match splitComma cs with
    | [] => [[]]
    | piece :: rest => if c = ',' then [] :: piece :: rest else (c :: piece) :: rest

/-- The white space and line terminators that `trim()` removes. -/
def isJsWhiteSpace (c : Char) : Bool :=
  c.toNat = 9 || c.toNat = 10 || c.toNat = 11 || c.toNat = 12 || c.toNat = 13
    || c.toNat = 32 || c.toNat = 160 || c.toNat = 5760
    || (8192 ≤ c.toNat && c.toNat ≤ 8202) || c.toNat = 8232 || c.toNat = 8233
    || c.toNat = 8239 || c.toNat = 8287 || c.toNat = 12288 || c.toNat = 65279

/-- The method `trim()` of a string. -/
def jsTrim (s : List Char) : List Char :=
  ((s.dropWhile isJsWhiteSpace).reverse.dropWhile isJsWhiteSpace).reverse

/-- Truthiness of `post.tags`, which is `null` or a string. -/
def jsTruthyText (tags : Option String) : Bool :=
  match tags with
  | none => false
  | some t => t != ""

/-- The expression
`post.tags.split(',').map(tag => '<span class="tag">' + tag.trim() + '</span>').join('')`,
written in the source with a template literal. -/
def tagSpans (tags : Option String) : String :=
  match tags with
  | none => ""
  | some t =>
    String.join ((splitComma t.toList).map fun tag =>
      "<span class=\"tag\">" ++ String.mk (jsTrim tag) ++ "</span>")

/-- The expression `s.replace(/\n/g, '<br>')`. -/
def replaceNewlines (s : String) : String :=
  ⟨s.toList.flatMap fun c => if c = '\n' then "<br>".toList else [c]⟩

/-- The method `createPostHTML(post)`; `toLocaleDateString` stands for
`t => new Date(t).toLocaleDateString()` of the browser. -/
def createPostHTML (toLocaleDateString : Nat → String) (post : Post) : String :=
  let tagsHTML := if jsTruthyText post.tags then tagSpans post.tags else ""
  let createdAt := toLocaleDateString post.createdAt
  let updatedAt := toLocaleDateString post.updatedAt
  "\n            <div class=\"post-item\" data-id=\"" ++
  toString post.id ++
  "\">\n                <div class=\"post-header\">\n                    <div>\n                        <div class=\"post-title\">" ++
  escapeHtml post.title ++
  "</div>\n                        <div class=\"post-meta\">\n                            <strong>Author:</strong> " ++
  escapeHtml post.authorId ++
  " | \n                            <strong>Category:</strong> " ++
  escapeHtml post.category ++
  " | \n                            <strong>Created:</strong> " ++
  createdAt ++
  " | \n                            <strong>Updated:</strong> " ++
  updatedAt ++
  "\n                        </div>\n                    </div>\n                </div>\n                <div class=\"post-content\">" ++
  escapeHtml post.content ++
  "</div>\n                " ++
  (if tagsHTML ≠ "" then "<div class=\"post-tags\">" ++ tagsHTML ++ "</div>" else "") ++
  "\n                <div class=\"post-actions\">\n                    <button class=\"view-btn\" onclick=\"postManager.viewPost('" ++
  toString post.id ++
  "')\">View</button>\n                    <button class=\"edit-btn\" onclick=\"postManager.editPost('" ++
  toString post.id ++
  "')\">Edit</button>\n                    <button class=\"delete-btn\" onclick=\"postManager.deletePost('" ++
  toString post.id ++
  "')\">Delete</button>\n                </div>\n            </div>\n        "

/-- The markup `showPostModal(post)` assigns to `modal.innerHTML`. -/
def showPostModal (toLocaleDateString : Nat → String) (post : Post) : String :=
    "\n            <div class=\"modal-content\">\n                <div class=\"modal-header\">\n                    <h2>" ++
    escapeHtml post.title ++
    "</h2>\n                    <span class=\"close\">&times;</span>\n                </div>\n                <div class=\"modal-body\">\n                    <div class=\"post-meta\">\n                        <strong>Author:</strong> " ++
    escapeHtml post.authorId ++
    " | \n                        <strong>Category:</strong> " ++
    escapeHtml post.category ++
    " | \n                        <strong>Created:</strong> " ++
    toLocaleDateString post.createdAt ++
    " | \n                        <strong>Updated:</strong> " ++
    toLocaleDateString post.updatedAt ++
    "\n                    </div>\n                    <div class=\"post-content-full\">\n                        " ++
    replaceNewlines (escapeHtml post.content) ++
    "\n                    </div>\n                    " ++
    (if jsTruthyText post.tags then
        "\n                        <div class=\"post-tags\">\n                            " ++ tagSpans post.tags ++
        "\n                        </div>\n                    "
      else "") ++
    "\n                </div>\n            </div>\n        "

/-! ## The client: form submission -/

/-- The HTTP method of a `fetch` call. -/
inductive Method where
  | GET
  | POST
  | PUT
  | DELETE
  deriving DecidableEq

/-- A `fetch` call: method, URL and the object sent as JSON body, if any. -/
structure FetchRequest where
  method : Method
  url : String
  body : Option PostBody
  deriving DecidableEq

/-- What a `fetch` call gives: the promise is rejected, or it yields a response with a
status and a body, which is `none` when it is not JSON. -/
inductive FetchResult where
  | rejected (message : String)
  | response (status : Nat) (json : Option Body)
  deriving DecidableEq

/-- The property `response.ok`: the status is in the range 200 to 299. -/
def responseOk (status : Nat) : Bool := decide (200 ≤ status) && decide (status ≤ 299)

/-- The fields of a `PostManager`.  `posts` holds whatever JSON value the last successful
load returned, `currentEditId` is `null` or the id handed to `editPost`. -/
structure PostManager where
  posts : Body
  currentEditId : JsVal
  apiBaseUrl : String
  deriving DecidableEq

/-- The result of running a method of `PostManager`: the fields afterwards, the `fetch`
calls made in order, and whether the method threw.  The page content (form, list,
notifications) is not part of it. -/
structure Step where
  manager : PostManager
  requests : List FetchRequest
  threw : Bool
  deriving DecidableEq

/-- The method `createPost(postData)`. -/
def PostManager.createPost (fetch : FetchRequest → FetchResult) (m : PostManager)
    (postData : PostBody) : Step :=
  let request : FetchRequest := ⟨.POST, m.apiBaseUrl ++ "/posts", some postData⟩
  match fetch request with
  | .rejected _ => ⟨m, [request], true⟩
  | .response status _ =>
    if !responseOk status then ⟨m, [request], true⟩
    else ⟨m, [request], false⟩

/-- The method `updatePost(postData)`. -/
def PostManager.updatePost (fetch : FetchRequest → FetchResult) (m : PostManager)
    (postData : PostBody) : Step :=
  let request : FetchRequest :=
    ⟨.PUT, m.apiBaseUrl ++ "/posts/" ++ m.currentEditId.toText, some postData⟩
  match fetch request with
  | .rejected _ => ⟨m, [request], true⟩
  | .response status _ =>
    if !responseOk status then ⟨m, [request], true⟩
    else ⟨{ m with currentEditId := .null }, [request], false⟩

/-- The method `resetForm()`. -/
def PostManager.resetForm (m : PostManager) : PostManager :=
  { m with currentEditId := .null }

/-- The method `loadPosts()`: every failure is caught inside it. -/
def PostManager.loadPosts (fetch : FetchRequest → FetchResult) (m : PostManager) : Step :=
  let request : FetchRequest := ⟨.GET, m.apiBaseUrl ++ "/posts", none⟩
  match fetch request with
  | .rejected _ => ⟨m, [request], false⟩
  | .response status json =>
    if !responseOk status then ⟨m, [request], false⟩
    else
      match json with
      | none => ⟨m, [request], false⟩
      | some value => ⟨{ m with posts := value }, [request], false⟩

/-- The method `handleFormSubmit(e)`, with `postData` the object read from the form. -/
def PostManager.handleFormSubmit (fetch : FetchRequest → FetchResult) (m : PostManager)
    (postData : PostBody) : Step :=
  let sent :=
    if m.currentEditId.truthy then m.updatePost fetch postData
    else m.createPost fetch postData
  if sent.threw then ⟨sent.manager, sent.requests, false⟩
  else
    let loaded := sent.manager.resetForm.loadPosts fetch
    ⟨loaded.manager, sent.requests ++ loaded.requests, false⟩

/-! ## The query builder, path by path -/

theorem buildListQuery_none (search category : JsVal) (hs : search.truthy = false)
    (hc : category.truthy = false) :
    buildListQuery search category = ("SELECT * FROM posts ORDER BY createdAt DESC", []) := by
  simp [buildListQuery, hs, hc]

theorem buildListQuery_search (search category : JsVal) (hs : search.truthy = true)
    (hc : category.truthy = false) :
    buildListQuery search category =
      ("SELECT * FROM posts WHERE (title LIKE ? OR content LIKE ? OR tags LIKE ?) ORDER BY createdAt DESC",
        [some ("%" ++ search.toText ++ "%"), some ("%" ++ search.toText ++ "%"),
          some ("%" ++ search.toText ++ "%")]) := by
  simp [buildListQuery, hs, hc]

theorem buildListQuery_category (search category : JsVal) (hs : search.truthy = false)
    (hc : category.truthy = true) :
    buildListQuery search category =
      ("SELECT * FROM posts WHERE category = ? ORDER BY createdAt DESC",
        [category.bindText]) := by
  simp [buildListQuery, hs, hc]

theorem buildListQuery_both (search category : JsVal) (hs : search.truthy = true)
    (hc : category.truthy = true) :
    buildListQuery search category =
      ("SELECT * FROM posts WHERE (title LIKE ? OR content LIKE ? OR tags LIKE ?) AND category = ? ORDER BY createdAt DESC",
        [some ("%" ++ search.toText ++ "%"), some ("%" ++ search.toText ++ "%"),
          some ("%" ++ search.toText ++ "%"), category.bindText]) := by
  simp [buildListQuery, hs, hc]

/-! ## What `GET /api/posts` answers on each path -/

theorem getPosts_none (db : Db) (search category : JsVal) (hs : search.truthy = false)
    (hc : category.truthy = false) :
    getPosts db none search category = ⟨200, .posts (orderByCreatedAtDesc db.posts)⟩ := by
  simp [getPosts, buildListQuery_none _ _ hs hc, dbAll]

theorem getPosts_search (db : Db) (search category : JsVal) (hs : search.truthy = true)
    (hc : category.truthy = false) :
    getPosts db none search category =
      ⟨200, .posts (orderByCreatedAtDesc (db.posts.filter (searchClause search.toText)))⟩ := by
  simp [getPosts, buildListQuery_search _ _ hs hc, dbAll]
  rfl

theorem getPosts_category (db : Db) (search category : JsVal) (hs : search.truthy = false)
    (hc : category.truthy = true) :
    getPosts db none search category =
      ⟨200, .posts (orderByCreatedAtDesc
        (db.posts.filter fun r => some r.category = category.bindText))⟩ := by
  simp [getPosts, buildListQuery_category _ _ hs hc, dbAll]

theorem getPosts_both (db : Db) (search category : JsVal) (hs : search.truthy = true)
    (hc : category.truthy = true) :
    getPosts db none search category =
      ⟨200, .posts (orderByCreatedAtDesc (db.posts.filter fun r =>
        searchClause search.toText r && decide (some r.category = category.bindText)))⟩ := by
  simp [getPosts, buildListQuery_both _ _ hs hc, dbAll, searchClause]

/-! ## Ordering of the result -/

theorem orderByCreatedAtDesc_sorted (rows : List Post) :
    (orderByCreatedAtDesc rows).Pairwise (fun a b => b.createdAt ≤ a.createdAt) :=
  List.sorted_insertionSort (fun a b : Post => b.createdAt ≤ a.createdAt) rows

theorem orderByCreatedAtDesc_perm (rows : List Post) :
    (orderByCreatedAtDesc rows).Perm rows :=
  List.perm_insertionSort (fun a b : Post => b.createdAt ≤ a.createdAt) rows

/-- Whatever the filter, without a storage failure the handler answers 200 with the rows
of one selection of the table, ordered by `orderByCreatedAtDesc`. -/
theorem getPosts_shape (db : Db) (search category : JsVal) :
    ∃ sel : List Post, getPosts db none search category =
      ⟨200, .posts (orderByCreatedAtDesc sel)⟩ := by
  cases hs : search.truthy <;> cases hc : category.truthy
  · exact ⟨_, getPosts_none db search category hs hc⟩
  · exact ⟨_, getPosts_category db search category hs hc⟩
  · exact ⟨_, getPosts_search db search category hs hc⟩
  · exact ⟨_, getPosts_both db search category hs hc⟩

theorem buildListQuery_orderBy (search category : JsVal) :
    ∃ front : String,
      (buildListQuery search category).1 = front ++ " ORDER BY createdAt DESC" := by
  cases hs : search.truthy <;> cases hc : category.truthy
  · exact ⟨"SELECT * FROM posts", by simp [buildListQuery_none _ _ hs hc]⟩
  · exact ⟨"SELECT * FROM posts WHERE category = ?",
      by simp [buildListQuery_category _ _ hs hc]⟩
  · exact ⟨"SELECT * FROM posts WHERE (title LIKE ? OR content LIKE ? OR tags LIKE ?)",
      by simp [buildListQuery_search _ _ hs hc]⟩
  · exact ⟨"SELECT * FROM posts WHERE (title LIKE ? OR content LIKE ? OR tags LIKE ?) AND category = ?",
      by simp [buildListQuery_both _ _ hs hc]⟩

/-- C3: for every filter and every table content, `GET /api/posts` (no storage failure)
answers 200 with an array ordered by `createdAt` descending: every earlier row has a
`createdAt` at least that of every later row, in particular each row that of its
successor; and the query text ends in ` ORDER BY createdAt DESC` on every path. -/
theorem getPosts_ordered_desc (db : Db) (search category : JsVal) :
    ∃ rows : List Post,
      getPosts db none search category = ⟨200, .posts rows⟩ ∧
      rows.Pairwise (fun a b => b.createdAt ≤ a.createdAt) ∧
      rows.Chain' (fun a b => b.createdAt ≤ a.createdAt) ∧
      ∃ front : String,
        (buildListQuery search category).1 = front ++ " ORDER BY createdAt DESC" := by
  obtain ⟨sel, hsel⟩ := getPosts_shape db search category
  exact ⟨_, hsel, orderByCreatedAtDesc_sorted sel,
    (orderByCreatedAtDesc_sorted sel).chain', buildListQuery_orderBy search category⟩

/-! ## Search and category filters -/

/-- C1, at a failing input: with one stored post titled "100 days of code", the searches
`100%` and `_` both return that post, although none of its title, content and tags contains
`100%` or `_` as a substring: `%` and `_` in the search text act as `LIKE` wildcards. -/
theorem getPosts_search_wildcard_not_substring :
    getPosts ⟨[⟨1, "100 days of code", "notes", "ann", "Tech", some "", 5, 5⟩], 1⟩ none
        (.str "100%") .undefined
      = ⟨200, .posts [⟨1, "100 days of code", "notes", "ann", "Tech", some "", 5, 5⟩]⟩ ∧
    ¬ specSearchCondition "100%" ⟨1, "100 days of code", "notes", "ann", "Tech", some "", 5, 5⟩ ∧
    getPosts ⟨[⟨1, "100 days of code", "notes", "ann", "Tech", some "", 5, 5⟩], 1⟩ none
        (.str "_") .undefined
      = ⟨200, .posts [⟨1, "100 days of code", "notes", "ann", "Tech", some "", 5, 5⟩]⟩ ∧
    ¬ specSearchCondition "_" ⟨1, "100 days of code", "notes", "ann", "Tech", some "", 5, 5⟩ := by
  refine ⟨?_, ?_, ?_, ?_⟩ <;> decide

/-- The three filter paths in terms of the code's own search clause: for every table
content, non-empty search text `s` and non-empty category `c`, and with `search0`,
`category0` standing for an absent or empty query parameter: `GET /api/posts` with only the
category returns exactly the rows whose category is `c`; with both it returns exactly the
rows that satisfy `searchClause` and have category `c`, which are exactly the rows of the
search-only answer that have category `c`; with neither it returns all rows. -/
theorem getPosts_category_and_search (db : Db) (s c : String) (search0 category0 : JsVal)
    (hs : s ≠ "") (hc : c ≠ "") (hs0 : search0.truthy = false)
    (hc0 : category0.truthy = false) :
    (∃ rows, getPosts db none search0 (.str c) = ⟨200, .posts rows⟩ ∧
      rows.Perm (db.posts.filter fun r => r.category = c)) ∧
    (∃ rows rowsS,
      getPosts db none (.str s) (.str c) = ⟨200, .posts rows⟩ ∧
      getPosts db none (.str s) category0 = ⟨200, .posts rowsS⟩ ∧
      rows.Perm (db.posts.filter fun r => searchClause s r && decide (r.category = c)) ∧
      rows.Perm (rowsS.filter fun r => r.category = c)) ∧
    (∃ rows, getPosts db none search0 category0 = ⟨200, .posts rows⟩ ∧
      rows.Perm db.posts) := by
  have hst : (JsVal.str s).truthy = true := by simp [JsVal.truthy, hs]
  have hct : (JsVal.str c).truthy = true := by simp [JsVal.truthy, hc]
  refine ⟨⟨_, getPosts_category db search0 (.str c) hs0 hct, ?_⟩,
    ⟨_, _, getPosts_both db (.str s) (.str c) hst hct,
      getPosts_search db (.str s) category0 hst hc0, ?_, ?_⟩,
    ⟨_, getPosts_none db search0 category0 hs0 hc0, orderByCreatedAtDesc_perm _⟩⟩
  · refine (orderByCreatedAtDesc_perm _).trans ?_
    simp [JsVal.bindText]
  · refine (orderByCreatedAtDesc_perm _).trans ?_
    simp [JsVal.bindText, JsVal.toText]
  · refine (orderByCreatedAtDesc_perm _).trans ?_
    refine List.Perm.trans ?_ ((orderByCreatedAtDesc_perm _).filter _).symm
    simp [JsVal.bindText, JsVal.toText, List.filter_filter, Bool.and_comm]

/-- The three filter paths at a concrete table: two posts, search text `ai`, category
`Tech`. -/
theorem getPosts_category_and_search_witness :
    ("ai" ≠ "" ∧ "Tech" ≠ "") ∧
    ((∃ rows, getPosts ⟨[⟨1, "AI now", "x", "ann", "Tech", some "", 5, 5⟩,
          ⟨2, "Rain", "wet", "bob", "Life", some "", 6, 6⟩], 2⟩ none .undefined (.str "Tech")
        = ⟨200, .posts rows⟩ ∧
      rows.Perm (List.filter (fun r => r.category = "Tech")
        [⟨1, "AI now", "x", "ann", "Tech", some "", 5, 5⟩,
          ⟨2, "Rain", "wet", "bob", "Life", some "", 6, 6⟩])) ∧
    (∃ rows rowsS,
      getPosts ⟨[⟨1, "AI now", "x", "ann", "Tech", some "", 5, 5⟩,
          ⟨2, "Rain", "wet", "bob", "Life", some "", 6, 6⟩], 2⟩ none (.str "ai") (.str "Tech")
        = ⟨200, .posts rows⟩ ∧
      getPosts ⟨[⟨1, "AI now", "x", "ann", "Tech", some "", 5, 5⟩,
          ⟨2, "Rain", "wet", "bob", "Life", some "", 6, 6⟩], 2⟩ none (.str "ai") .undefined
        = ⟨200, .posts rowsS⟩ ∧
      rows.Perm (List.filter (fun r => searchClause "ai" r && decide (r.category = "Tech"))
        [⟨1, "AI now", "x", "ann", "Tech", some "", 5, 5⟩,
          ⟨2, "Rain", "wet", "bob", "Life", some "", 6, 6⟩]) ∧
      rows.Perm (rowsS.filter fun r => r.category = "Tech")) ∧
    (∃ rows, getPosts ⟨[⟨1, "AI now", "x", "ann", "Tech", some "", 5, 5⟩,
          ⟨2, "Rain", "wet", "bob", "Life", some "", 6, 6⟩], 2⟩ none .undefined .undefined
        = ⟨200, .posts rows⟩ ∧
      rows.Perm [⟨1, "AI now", "x", "ann", "Tech", some "", 5, 5⟩,
          ⟨2, "Rain", "wet", "bob", "Life", some "", 6, 6⟩])) :=
  ⟨⟨by decide, by decide⟩,
    getPosts_category_and_search _ "ai" "Tech" .undefined .undefined (by decide) (by decide)
      rfl rfl⟩

/-! ## Validation of the request body -/

/-- C4: when at least one of title, content, authorId, category is missing or the empty
string, `POST /api/posts` answers 400 `Missing required fields` and leaves the database
as it was, and so does `PUT /api/posts/:id` for every id parameter, stored or not. -/
theorem createPost_updatePost_missing_field (db : Db) (now : Nat)
    (fault1 fault2 : Option String) (id : Option Nat) (body : PostBody)
    (h : (body.title = .undefined ∨ body.title = .str "") ∨
         (body.content = .undefined ∨ body.content = .str "") ∨
         (body.authorId = .undefined ∨ body.authorId = .str "") ∨
         (body.category = .undefined ∨ body.category = .str "")) :
    createPost db now fault1 fault2 body = (⟨400, .error "Missing required fields"⟩, db) ∧
    updatePost db now fault1 fault2 id body
      = (⟨400, .error "Missing required fields"⟩, db) := by
  have hv : (!body.title.truthy || !body.content.truthy || !body.authorId.truthy
      || !body.category.truthy) = true := by
    rcases h with (h | h) | (h | h) | (h | h) | (h | h) <;> simp [h, JsVal.truthy]
  constructor
  · unfold createPost; rw [if_pos hv]
  · unfold updatePost; rw [if_pos hv]

/-- C4 at concrete requests: an empty title, on a table holding post 1, for `PUT` on id 1. -/
theorem createPost_updatePost_missing_field_witness :
    createPost ⟨[⟨1, "AI now", "x", "ann", "Tech", some "", 5, 5⟩], 1⟩ 9 none none
        ⟨.str "", .str "text", .str "ann", .str "Tech", .undefined⟩
      = (⟨400, .error "Missing required fields"⟩,
          ⟨[⟨1, "AI now", "x", "ann", "Tech", some "", 5, 5⟩], 1⟩) ∧
    updatePost ⟨[⟨1, "AI now", "x", "ann", "Tech", some "", 5, 5⟩], 1⟩ 9 none none (some 1)
        ⟨.str "", .str "text", .str "ann", .str "Tech", .undefined⟩
      = (⟨400, .error "Missing required fields"⟩,
          ⟨[⟨1, "AI now", "x", "ann", "Tech", some "", 5, 5⟩], 1⟩) :=
  createPost_updatePost_missing_field _ 9 none none (some 1)
    ⟨.str "", .str "text", .str "ann", .str "Tech", .undefined⟩ (Or.inl (Or.inr rfl))

/-! ## Row ids -/

theorem foldl_max_ge_init (rows : List Post) (m : Nat) :
    m ≤ rows.foldl (fun m r => max m r.id) m := by
  induction rows generalizing m with
  | nil => exact Nat.le_refl m
  | cons r rs ih => exact Nat.le_trans (Nat.le_max_left m r.id) (ih (max m r.id))

theorem foldl_max_ge_mem (rows : List Post) (m : Nat) (p : Post) (hp : p ∈ rows) :
    p.id ≤ rows.foldl (fun m r => max m r.id) m := by
  induction rows generalizing m with
  | nil => cases hp
  | cons r rs ih =>
    rcases List.mem_cons.mp hp with h | h
    · subst h
      exact Nat.le_trans (Nat.le_max_right m p.id) (foldl_max_ge_init rs (max m p.id))
    · exact ih (max m r.id) h

theorem lt_nextRowid (db : Db) (p : Post) (hp : p ∈ db.posts) : p.id < nextRowid db :=
  Nat.lt_succ_of_le (foldl_max_ge_mem db.posts db.seq p hp)

theorem find?_nextRowid (db : Db) :
    db.posts.find? (fun r => r.id == nextRowid db) = none := by
  rw [List.find?_eq_none]
  intro p hp
  have := lt_nextRowid db p hp
  simp
  omega

/-- The answer of `POST /api/posts` to a body whose required fields are non-empty strings,
without storage failure. -/
theorem createPost_valid (db : Db) (now : Nat) (t c a g : String) (tags : JsVal)
    (ht : t ≠ "") (hc : c ≠ "") (ha : a ≠ "") (hg : g ≠ "") :
    createPost db now none none ⟨.str t, .str c, .str a, .str g, tags⟩ =
      (⟨201, .post (some ⟨nextRowid db, t, c, a, g,
          (jsOr tags (.str "")).bindText, now, now⟩)⟩,
        ⟨db.posts ++ [⟨nextRowid db, t, c, a, g, (jsOr tags (.str "")).bindText, now, now⟩],
          nextRowid db⟩) := by
  simp [createPost, JsVal.truthy, ht, hc, ha, hg, dbRunInsert, JsVal.bindText, dbGet,
    List.find?_append, find?_nextRowid]

/-! ## Create, and create followed by get -/

/-- C5: for a body whose title, content, authorId and category are non-empty strings, and
without storage failure, `POST /api/posts` answers 201 with a record whose id is the id of
no post stored before, whose `createdAt` equals its `updatedAt`, whose title, content,
authorId and category are the inputs, and whose tags is the supplied tags text, or the
empty string when tags is omitted. -/
theorem createPost_returns_new_record (db : Db) (now : Nat) (t c a g : String)
    (tags : JsVal) (ht : t ≠ "") (hc : c ≠ "") (ha : a ≠ "") (hg : g ≠ "") :
    ∃ (row : Post) (db1 : Db),
      createPost db now none none ⟨.str t, .str c, .str a, .str g, tags⟩
        = (⟨201, .post (some row)⟩, db1) ∧
      (∀ p ∈ db.posts, p.id ≠ row.id) ∧
      row.createdAt = row.updatedAt ∧
      row.title = t ∧ row.content = c ∧ row.authorId = a ∧ row.category = g ∧
      (∀ x, tags = .str x → row.tags = some x) ∧
      (tags = .undefined → row.tags = some "") := by
  refine ⟨_, _, createPost_valid db now t c a g tags ht hc ha hg, ?_, rfl, rfl, rfl, rfl, rfl,
    ?_, ?_⟩
  · intro p hp
    exact Nat.ne_of_lt (lt_nextRowid db p hp)
  · intro x hx
    subst hx
    by_cases hx : x = "" <;> simp [jsOr, JsVal.truthy, JsVal.bindText, hx]
  · intro hx
    subst hx
    simp [jsOr, JsVal.truthy, JsVal.bindText]

/-- C5 at a concrete request: a body without tags, on a table holding post 1. -/
theorem createPost_returns_new_record_witness :
    ("T" ≠ "" ∧ "C" ≠ "" ∧ "A" ≠ "" ∧ "G" ≠ "") ∧
    ∃ (row : Post) (db1 : Db),
      createPost ⟨[⟨1, "AI now", "x", "ann", "Tech", some "", 5, 5⟩], 1⟩ 9 none none
          ⟨.str "T", .str "C", .str "A", .str "G", .undefined⟩
        = (⟨201, .post (some row)⟩, db1) ∧
      (∀ p ∈ [(⟨1, "AI now", "x", "ann", "Tech", some "", 5, 5⟩ : Post)], p.id ≠ row.id) ∧
      row.createdAt = row.updatedAt ∧
      row.title = "T" ∧ row.content = "C" ∧ row.authorId = "A" ∧ row.category = "G" ∧
      (∀ x, JsVal.undefined = .str x → row.tags = some x) ∧
      (JsVal.undefined = .undefined → row.tags = some "") :=
  ⟨⟨by decide, by decide, by decide, by decide⟩,
    createPost_returns_new_record ⟨[⟨1, "AI now", "x", "ann", "Tech", some "", 5, 5⟩], 1⟩ 9
      "T" "C" "A" "G" .undefined (by decide) (by decide) (by decide) (by decide)⟩

/-- C6: for every table content and every body whose required fields are non-empty strings,
without storage failure: `POST /api/posts` answers 201 with a record `row`, and on the
resulting database `GET /api/posts/:id` for `row.id` answers 200 with that same record,
which has the input title, content, authorId and category, the tags text (empty when
omitted) and the creation time in both timestamps; and every id for which `GET` answered
200 with a record before the call still gets 200 with the same record. -/
theorem createPost_then_getPostById (db : Db) (now : Nat) (t c a g : String)
    (tags : JsVal) (ht : t ≠ "") (hc : c ≠ "") (ha : a ≠ "") (hg : g ≠ "") :
    ∃ (row : Post) (db1 : Db),
      createPost db now none none ⟨.str t, .str c, .str a, .str g, tags⟩
        = (⟨201, .post (some row)⟩, db1) ∧
      getPostById db1 none (some row.id) = ⟨200, .post (some row)⟩ ∧
      row.title = t ∧ row.content = c ∧ row.authorId = a ∧ row.category = g ∧
      row.tags = (jsOr tags (.str "")).bindText ∧
      row.createdAt = now ∧ row.updatedAt = now ∧
      (∀ x, tags = .str x → row.tags = some x) ∧
      (tags = .undefined → row.tags = some "") ∧
      ∀ (i : Nat) (q : Post), getPostById db none (some i) = ⟨200, .post (some q)⟩ →
        getPostById db1 none (some i) = ⟨200, .post (some q)⟩ := by
  refine ⟨_, _, createPost_valid db now t c a g tags ht hc ha hg, ?_, rfl, rfl, rfl, rfl, rfl,
    rfl, rfl, ?_, ?_, ?_⟩
  · simp [getPostById, dbGet, List.find?_append, find?_nextRowid]
  · intro x hx
    subst hx
    by_cases hx : x = "" <;> simp [jsOr, JsVal.truthy, JsVal.bindText, hx]
  · intro hx
    subst hx
    simp [jsOr, JsVal.truthy, JsVal.bindText]
  · intro i q hq
    have hfind : db.posts.find? (fun r => r.id == i) = some q := by
      cases hf : db.posts.find? (fun r => r.id == i) with
      | none => simp [getPostById, dbGet, hf] at hq
      | some q1 =>
        simp [getPostById, dbGet, hf] at hq
        rw [hq]
    simp [getPostById, dbGet, List.find?_append, hfind]

/-- C6 at a concrete request: a body with tags `a,b`, on a table holding post 1. -/
theorem createPost_then_getPostById_witness :
    ("T" ≠ "" ∧ "C" ≠ "" ∧ "A" ≠ "" ∧ "G" ≠ "") ∧
    ∃ (row : Post) (db1 : Db),
      createPost ⟨[⟨1, "AI now", "x", "ann", "Tech", some "", 5, 5⟩], 1⟩ 9 none none
          ⟨.str "T", .str "C", .str "A", .str "G", .str "a,b"⟩
        = (⟨201, .post (some row)⟩, db1) ∧
      getPostById db1 none (some row.id) = ⟨200, .post (some row)⟩ ∧
      row.title = "T" ∧ row.content = "C" ∧ row.authorId = "A" ∧ row.category = "G" ∧
      row.tags = (jsOr (.str "a,b") (.str "")).bindText ∧
      row.createdAt = 9 ∧ row.updatedAt = 9 ∧
      (∀ x, JsVal.str "a,b" = .str x → row.tags = some x) ∧
      (JsVal.str "a,b" = .undefined → row.tags = some "") ∧
      ∀ (i : Nat) (q : Post),
        getPostById ⟨[⟨1, "AI now", "x", "ann", "Tech", some "", 5, 5⟩], 1⟩ none (some i)
          = ⟨200, .post (some q)⟩ →
        getPostById db1 none (some i) = ⟨200, .post (some q)⟩ :=
  ⟨⟨by decide, by decide, by decide, by decide⟩,
    createPost_then_getPostById ⟨[⟨1, "AI now", "x", "ann", "Tech", some "", 5, 5⟩], 1⟩ 9
      "T" "C" "A" "G" (.str "a,b") (by decide) (by decide) (by decide) (by decide)⟩

/-! ## Lookup by id -/

theorem eq_of_id_eq (rows : List Post) (hn : (rows.map Post.id).Nodup) (p q : Post)
    (hp : p ∈ rows) (hq : q ∈ rows) (h : p.id = q.id) : p = q :=
  List.inj_on_of_nodup_map hn hp hq h

theorem find?_id_mem (rows : List Post) (p : Post) (hp : p ∈ rows) :
    ∃ q, rows.find? (fun r => r.id == p.id) = some q ∧ q ∈ rows ∧ q.id = p.id := by
  cases hf : rows.find? (fun r => r.id == p.id) with
  | none =>
    rw [List.find?_eq_none] at hf
    exact absurd (by simp) (hf p hp)
  | some q =>
    refine ⟨q, rfl, List.mem_of_find?_eq_some hf, ?_⟩
    have := List.find?_some hf
    simpa using this

theorem find?_id_of_nodup (rows : List Post) (hn : (rows.map Post.id).Nodup) (p : Post)
    (hp : p ∈ rows) : rows.find? (fun r => r.id == p.id) = some p := by
  obtain ⟨q, hq, hmem, hid⟩ := find?_id_mem rows p hp
  rw [hq, eq_of_id_eq rows hn q p hmem hp hid]

theorem find?_id_map (rows : List Post) (f : Post → Post) (hf : ∀ r, (f r).id = r.id)
    (j : Nat) :
    (rows.map f).find? (fun r => r.id == j) = (rows.find? (fun r => r.id == j)).map f := by
  rw [List.find?_map]
  have : ((fun r : Post => r.id == j) ∘ f) = fun r : Post => r.id == j := by
    funext r
    simp [hf]
  rw [this]

/-- The answer of `PUT /api/posts/:id` for the id of a stored post and a body whose
required fields are non-empty strings, without storage failure. -/
theorem updatePost_valid (db : Db) (now : Nat) (p : Post) (t c a g : String) (tags : JsVal)
    (hp : p ∈ db.posts) (ht : t ≠ "") (hc : c ≠ "") (ha : a ≠ "") (hg : g ≠ "") :
    updatePost db now none none (some p.id) ⟨.str t, .str c, .str a, .str g, tags⟩ =
      (⟨200, .post ((db.posts.find? (fun r => r.id == p.id)).map fun r =>
          { r with title := t, content := c, authorId := a, category := g,
                   tags := (jsOr tags (.str "")).bindText, updatedAt := now })⟩,
        { db with posts := db.posts.map fun r =>
            if r.id == p.id then
              { r with title := t, content := c, authorId := a, category := g,
                       tags := (jsOr tags (.str "")).bindText, updatedAt := now }
            else r }) := by
  obtain ⟨q, hq, -, hid⟩ := find?_id_mem db.posts p hp
  have hcount : ¬ (db.posts.countP (fun r => r.id == p.id) = 0) := by
    rw [List.countP_eq_zero]
    intro h
    exact absurd (by simp) (h p hp)
  have hval : (!(JsVal.str t).truthy || !(JsVal.str c).truthy || !(JsVal.str a).truthy
      || !(JsVal.str g).truthy) = false := by
    simp [JsVal.truthy, ht, hc, ha, hg]
  unfold updatePost
  dsimp only
  generalize (jsOr tags (JsVal.str "")).bindText = tg
  have hmap := find?_id_map db.posts (fun r =>
      if r.id == p.id then
        { r with title := t, content := c, authorId := a, category := g,
                 tags := tg, updatedAt := now }
      else r) (by intro r; dsimp only; split <;> rfl) p.id
  rw [hval]
  simp only [Bool.false_eq_true, if_false, JsVal.bindText, dbRunUpdate, if_neg hcount, dbGet,
    hmap, hq, Option.map_some']
  simp [hid]

/-! ## Update -/

/-- C7: for a table with distinct ids that holds a post `p`, a body whose required fields
are non-empty strings, and a clock that has not gone back behind `p.updatedAt`,
`PUT /api/posts/:id` for `p.id` answers 200 with a record that has the title, content,
authorId and category of the body and its tags text (empty when omitted), the id and
`createdAt` of `p`, and an `updatedAt` at least that of `p`; the table afterwards is the
table before with `p` replaced by that record, so every post with another id is unchanged,
and `GET` for every other id answers as before. -/
theorem updatePost_replaces_fields (db : Db) (now : Nat) (p : Post) (t c a g : String)
    (tags : JsVal) (hn : (db.posts.map Post.id).Nodup) (hp : p ∈ db.posts)
    (ht : t ≠ "") (hc : c ≠ "") (ha : a ≠ "") (hg : g ≠ "") (hclock : p.updatedAt ≤ now) :
    ∃ (q : Post) (db1 : Db),
      updatePost db now none none (some p.id) ⟨.str t, .str c, .str a, .str g, tags⟩
        = (⟨200, .post (some q)⟩, db1) ∧
      q.title = t ∧ q.content = c ∧ q.authorId = a ∧ q.category = g ∧
      (∀ x, tags = .str x → q.tags = some x) ∧
      (tags = .undefined → q.tags = some "") ∧
      q.id = p.id ∧ q.createdAt = p.createdAt ∧ p.updatedAt ≤ q.updatedAt ∧
      db1.posts = db.posts.map (fun r => if r.id = p.id then q else r) ∧
      db1.seq = db.seq ∧
      ∀ j, j ≠ p.id → getPostById db1 none (some j) = getPostById db none (some j) := by
  have h := updatePost_valid db now p t c a g tags hp ht hc ha hg
  rw [find?_id_of_nodup db.posts hn p hp] at h
  refine ⟨_, _, h, rfl, rfl, rfl, rfl, ?_, ?_, rfl, rfl, hclock, ?_, rfl, ?_⟩
  · intro x hx
    subst hx
    by_cases hx : x = "" <;> simp [jsOr, JsVal.truthy, JsVal.bindText, hx]
  · intro hx
    subst hx
    simp [jsOr, JsVal.truthy, JsVal.bindText]
  · apply List.map_congr_left
    intro r hr
    by_cases hid : r.id = p.id
    · have : r = p := eq_of_id_eq db.posts hn r p hr hp hid
      subst this
      simp
    · simp [hid]
  · intro j hj
    have hmap := find?_id_map db.posts (fun r =>
      if r.id == p.id then
        { r with title := t, content := c, authorId := a, category := g,
                 tags := (jsOr tags (.str "")).bindText, updatedAt := now }
      else r) (by intro r; dsimp only; split <;> rfl) j
    unfold getPostById dbGet
    dsimp only
    rw [hmap]
    cases hf : db.posts.find? (fun r => r.id == j) with
    | none => rfl
    | some r =>
      have hrj : r.id = j := by simpa using List.find?_some hf
      have hne : ¬ r.id = p.id := by rw [hrj]; exact hj
      simp [hne]

/-- C7 at a concrete request: updating post 1 of a two-post table at time 9. -/
theorem updatePost_replaces_fields_witness :
    ∃ (q : Post) (db1 : Db),
      updatePost ⟨[⟨1, "AI now", "x", "ann", "Tech", some "", 5, 5⟩,
          ⟨2, "Rain", "wet", "bob", "Life", some "", 6, 6⟩], 2⟩ 9 none none (some 1)
          ⟨.str "T", .str "C", .str "A", .str "G", .undefined⟩
        = (⟨200, .post (some q)⟩, db1) ∧
      q.title = "T" ∧ q.content = "C" ∧ q.authorId = "A" ∧ q.category = "G" ∧
      (∀ x, JsVal.undefined = .str x → q.tags = some x) ∧
      (JsVal.undefined = .undefined → q.tags = some "") ∧
      q.id = 1 ∧ q.createdAt = 5 ∧ 5 ≤ q.updatedAt ∧
      db1.posts = List.map (fun r => if r.id = 1 then q else r)
        [⟨1, "AI now", "x", "ann", "Tech", some "", 5, 5⟩,
          ⟨2, "Rain", "wet", "bob", "Life", some "", 6, 6⟩] ∧
      db1.seq = 2 ∧
      ∀ j, j ≠ 1 → getPostById db1 none (some j)
        = getPostById ⟨[⟨1, "AI now", "x", "ann", "Tech", some "", 5, 5⟩,
          ⟨2, "Rain", "wet", "bob", "Life", some "", 6, 6⟩], 2⟩ none (some j) :=
  updatePost_replaces_fields
    ⟨[⟨1, "AI now", "x", "ann", "Tech", some "", 5, 5⟩,
      ⟨2, "Rain", "wet", "bob", "Life", some "", 6, 6⟩], 2⟩ 9
    ⟨1, "AI now", "x", "ann", "Tech", some "", 5, 5⟩ "T" "C" "A" "G" .undefined
    (by decide) (by decide) (by decide) (by decide) (by decide) (by decide) (by decide)

/-! ## Ids that are not stored -/

theorem find?_id_none (rows : List Post) (i : Nat) (h : ∀ p ∈ rows, p.id ≠ i) :
    rows.find? (fun r => r.id == i) = none := by
  rw [List.find?_eq_none]
  intro p hp
  simpa using h p hp

theorem countP_id_zero (rows : List Post) (i : Nat) (h : ∀ p ∈ rows, p.id ≠ i) :
    rows.countP (fun r => r.id == i) = 0 := by
  rw [List.countP_eq_zero]
  intro p hp
  simpa using h p hp

theorem filter_id_self (rows : List Post) (i : Nat) (h : ∀ p ∈ rows, p.id ≠ i) :
    rows.filter (fun r => r.id != i) = rows := by
  rw [List.filter_eq_self]
  intro p hp
  simpa using h p hp

/-- C8: when the id parameter is the id of no stored post (it spells no row id, or a row id
that is not in the table), `GET /api/posts/:id`, `PUT /api/posts/:id` with a body whose
required fields are non-empty strings, and `DELETE /api/posts/:id` each answer 404
`Post not found` and the database is unchanged.  Conversely, for the id of a stored post
`GET` answers 200 with a stored post of that id, which is that very post when ids are
distinct. -/
theorem notFound_unless_stored (db : Db) (now : Nat) (id : Option Nat) (t c a g : String)
    (tags : JsVal) (ht : t ≠ "") (hc : c ≠ "") (ha : a ≠ "") (hg : g ≠ "") :
    ((∀ i, id = some i → ∀ p ∈ db.posts, p.id ≠ i) →
      getPostById db none id = ⟨404, .error "Post not found"⟩ ∧
      updatePost db now none none id ⟨.str t, .str c, .str a, .str g, tags⟩
        = (⟨404, .error "Post not found"⟩, db) ∧
      deletePost db none id = (⟨404, .error "Post not found"⟩, db)) ∧
    (∀ p ∈ db.posts, ∃ q ∈ db.posts, q.id = p.id ∧
      getPostById db none (some p.id) = ⟨200, .post (some q)⟩ ∧
      ((db.posts.map Post.id).Nodup → q = p)) := by
  have hval : (!(JsVal.str t).truthy || !(JsVal.str c).truthy || !(JsVal.str a).truthy
      || !(JsVal.str g).truthy) = false := by
    simp [JsVal.truthy, ht, hc, ha, hg]
  constructor
  · intro hnot
    cases id with
    | none =>
      refine ⟨rfl, ?_, rfl⟩
      unfold updatePost
      dsimp only
      rw [hval]
      rfl
    | some i =>
      have hi := hnot i rfl
      refine ⟨?_, ?_, ?_⟩
      · simp [getPostById, dbGet, find?_id_none db.posts i hi]
      · unfold updatePost
        dsimp only
        rw [hval]
        simp [dbRunUpdate, countP_id_zero db.posts i hi]
      · simp [deletePost, dbRunDelete, countP_id_zero db.posts i hi,
          filter_id_self db.posts i hi]
  · intro p hp
    obtain ⟨q, hq, hmem, hid⟩ := find?_id_mem db.posts p hp
    refine ⟨q, hmem, hid, ?_, ?_⟩
    · simp [getPostById, dbGet, hq]
    · intro hn
      exact eq_of_id_eq db.posts hn q p hmem hp hid

/-- C8 at concrete requests: id 7 on a table holding only post 1, and the stored id 1. -/
theorem notFound_unless_stored_witness :
    ("T" ≠ "" ∧ "C" ≠ "" ∧ "A" ≠ "" ∧ "G" ≠ "") ∧
    (∀ i, some 7 = some i →
      ∀ p ∈ [(⟨1, "AI now", "x", "ann", "Tech", some "", 5, 5⟩ : Post)], p.id ≠ i) ∧
    (getPostById ⟨[⟨1, "AI now", "x", "ann", "Tech", some "", 5, 5⟩], 1⟩ none (some 7)
        = ⟨404, .error "Post not found"⟩ ∧
      updatePost ⟨[⟨1, "AI now", "x", "ann", "Tech", some "", 5, 5⟩], 1⟩ 9 none none (some 7)
          ⟨.str "T", .str "C", .str "A", .str "G", .undefined⟩
        = (⟨404, .error "Post not found"⟩,
            ⟨[⟨1, "AI now", "x", "ann", "Tech", some "", 5, 5⟩], 1⟩) ∧
      deletePost ⟨[⟨1, "AI now", "x", "ann", "Tech", some "", 5, 5⟩], 1⟩ none (some 7)
        = (⟨404, .error "Post not found"⟩,
            ⟨[⟨1, "AI now", "x", "ann", "Tech", some "", 5, 5⟩], 1⟩)) ∧
    getPostById ⟨[⟨1, "AI now", "x", "ann", "Tech", some "", 5, 5⟩], 1⟩ none (some 1)
      = ⟨200, .post (some ⟨1, "AI now", "x", "ann", "Tech", some "", 5, 5⟩)⟩ := by
  have h := notFound_unless_stored ⟨[⟨1, "AI now", "x", "ann", "Tech", some "", 5, 5⟩], 1⟩ 9
    (some 7) "T" "C" "A" "G" .undefined (by decide) (by decide) (by decide) (by decide)
  have hnot : ∀ i, some 7 = some i →
      ∀ p ∈ [(⟨1, "AI now", "x", "ann", "Tech", some "", 5, 5⟩ : Post)], p.id ≠ i := by
    intro i hi p hp
    cases hi
    rw [List.mem_singleton.mp hp]
    decide
  exact ⟨⟨by decide, by decide, by decide, by decide⟩, hnot, h.1 hnot, by decide⟩

/-! ## Delete -/

theorem find?_id_filter_ne (rows : List Post) (i j : Nat) (h : j ≠ i) :
    (rows.filter (fun r => r.id != i)).find? (fun r => r.id == j)
      = rows.find? (fun r => r.id == j) := by
  rw [List.find?_filter]
  congr 1
  funext r
  by_cases hrj : r.id = j
  · subst hrj
    simp [h]
  · simp [hrj]

/-- C9: for a table holding a post `p`, `DELETE /api/posts/:id` for `p.id` answers 200 with
the confirmation message; the table afterwards holds exactly the rows with another id, in
their order (the table minus `p` when ids are distinct); a following `GET` for `p.id`
answers 404, and `GET` for every other id answers as before. -/
theorem deletePost_removes (db : Db) (p : Post) (hp : p ∈ db.posts) :
    ∃ db1 : Db,
      deletePost db none (some p.id)
        = (⟨200, .message "Post deleted successfully"⟩, db1) ∧
      getPostById db1 none (some p.id) = ⟨404, .error "Post not found"⟩ ∧
      db1.posts = db.posts.filter (fun r => r.id != p.id) ∧
      (∀ r, r ∈ db1.posts ↔ r ∈ db.posts ∧ r.id ≠ p.id) ∧
      ((db.posts.map Post.id).Nodup → db1.posts = db.posts.erase p) ∧
      ∀ j, j ≠ p.id → getPostById db1 none (some j) = getPostById db none (some j) := by
  have hcount : ¬ (db.posts.countP (fun r => r.id == p.id) = 0) := by
    rw [List.countP_eq_zero]
    intro h
    exact absurd (by simp) (h p hp)
  refine ⟨⟨db.posts.filter (fun r => r.id != p.id), db.seq⟩, ?_, ?_, rfl, ?_, ?_, ?_⟩
  · simp only [deletePost, dbRunDelete, if_neg hcount]
  · have : (db.posts.filter (fun r => r.id != p.id)).find? (fun r => r.id == p.id) = none := by
      rw [List.find?_eq_none]
      intro r hr
      have := (List.mem_filter.mp hr).2
      simpa using this
    simp [getPostById, dbGet, this]
  · intro r
    simp [List.mem_filter]
  · intro hn
    have hnd : db.posts.Nodup := List.Nodup.of_map _ hn
    rw [hnd.erase_eq_filter p]
    apply List.filter_congr
    intro r hr
    by_cases hid : r.id = p.id
    · have : r = p := eq_of_id_eq db.posts hn r p hr hp hid
      subst this
      simp
    · have hne : r ≠ p := fun e => hid (by rw [e])
      have h1 : (r.id != p.id) = true := by simpa using hid
      have h2 : (r != p) = true := by simpa using hne
      rw [h1, h2]
  · intro j hj
    simp only [getPostById, dbGet, find?_id_filter_ne db.posts p.id j hj]

/-- C9 at a concrete request: deleting post 1 of a two-post table. -/
theorem deletePost_removes_witness :
    (⟨1, "AI now", "x", "ann", "Tech", some "", 5, 5⟩ : Post) ∈
      [(⟨1, "AI now", "x", "ann", "Tech", some "", 5, 5⟩ : Post),
        ⟨2, "Rain", "wet", "bob", "Life", some "", 6, 6⟩] ∧
    ∃ db1 : Db,
      deletePost ⟨[⟨1, "AI now", "x", "ann", "Tech", some "", 5, 5⟩,
          ⟨2, "Rain", "wet", "bob", "Life", some "", 6, 6⟩], 2⟩ none (some 1)
        = (⟨200, .message "Post deleted successfully"⟩, db1) ∧
      getPostById db1 none (some 1) = ⟨404, .error "Post not found"⟩ ∧
      db1.posts = [⟨2, "Rain", "wet", "bob", "Life", some "", 6, 6⟩] :=
  ⟨by decide,
    (deletePost_removes ⟨[⟨1, "AI now", "x", "ann", "Tech", some "", 5, 5⟩,
        ⟨2, "Rain", "wet", "bob", "Life", some "", 6, 6⟩], 2⟩
      ⟨1, "AI now", "x", "ann", "Tech", some "", 5, 5⟩ (by decide)).imp
      fun _ h => ⟨h.1, h.2.1, h.2.2.1.trans (by decide)⟩⟩

/-! ## Categories -/

theorem getCategories_eq (db : Db) :
    getCategories db none = ⟨200, .strings
      (((db.posts.map fun r => r.category).dedup).insertionSort
        fun a b => a.toList ≤ b.toList)⟩ := by
  simp [getCategories, dbAllCategories, List.map_map, Function.comp_def]

/-- C10: for every table content, `GET /api/categories` (no storage failure) answers 200
with an array of strings that is sorted ascending, even strictly, has no duplicates, and
whose elements are exactly the category values of the stored posts; for posts with
categories `Tech`, `Tech`, `Life` it is `Life`, `Tech`. -/
theorem getCategories_sorted_distinct (db : Db) :
    ∃ xs : List String,
      getCategories db none = ⟨200, .strings xs⟩ ∧
      xs.Pairwise (· ≤ ·) ∧ xs.Pairwise (· < ·) ∧ xs.Nodup ∧
      (∀ c, c ∈ xs ↔ ∃ p ∈ db.posts, p.category = c) ∧
      ((db.posts.map fun r => r.category) = ["Tech", "Tech", "Life"] →
        xs = ["Life", "Tech"]) := by
  have hperm := List.perm_insertionSort (fun a b : String => a.toList ≤ b.toList)
    ((db.posts.map fun r => r.category).dedup)
  have hsorted := List.sorted_insertionSort (fun a b : String => a.toList ≤ b.toList)
    ((db.posts.map fun r => r.category).dedup)
  have hnodup : ((((db.posts.map fun r => r.category).dedup).insertionSort
      fun a b => a.toList ≤ b.toList)).Nodup :=
    hperm.nodup_iff.mpr (List.nodup_dedup _)
  have hle : ((((db.posts.map fun r => r.category).dedup).insertionSort
      fun a b => a.toList ≤ b.toList)).Pairwise (· ≤ ·) :=
    List.Pairwise.imp (fun h => String.le_iff_toList_le.mpr h) hsorted
  refine ⟨_, getCategories_eq db, hle, ?_, hnodup, ?_, ?_⟩
  · exact (hle.and hnodup).imp fun h => lt_of_le_of_ne h.1 h.2
  · intro c
    rw [hperm.mem_iff, List.mem_dedup, List.mem_map]
  · intro h
    rw [h]
    decide

/-- C10 at the table of the example: categories `Tech`, `Tech`, `Life`. -/
theorem getCategories_sorted_distinct_witness :
    getCategories ⟨[⟨1, "AI now", "x", "ann", "Tech", some "", 5, 5⟩,
        ⟨2, "Chips", "y", "bob", "Tech", some "", 6, 6⟩,
        ⟨3, "Rain", "wet", "cyd", "Life", some "", 7, 7⟩], 3⟩ none
      = ⟨200, .strings ["Life", "Tech"]⟩ := by
  obtain ⟨xs, hxs, -, -, -, -, hex⟩ := getCategories_sorted_distinct
    ⟨[⟨1, "AI now", "x", "ann", "Tech", some "", 5, 5⟩,
      ⟨2, "Chips", "y", "bob", "Tech", some "", 6, 6⟩,
      ⟨3, "Rain", "wet", "cyd", "Life", some "", 7, 7⟩], 3⟩
  rw [hxs, hex rfl]

/-! ## The search clause on search texts without `%` and `_` -/

theorem likeChars_percent (p x : List Char) :
    likeChars ('%' :: p) x = x.tails.any (fun t => likeChars p t) := by
  simp [likeChars]

theorem likeChars_cons (c : Char) (p x : List Char) (h1 : c ≠ '%') (h2 : c ≠ '_') :
    likeChars (c :: p) x = true ↔
      ∃ d x1, x = d :: x1 ∧ c.toLower = d.toLower ∧ likeChars p x1 = true := by
  cases x with
  | nil => simp [likeChars, h1]
  | cons d x1 =>
    simp only [likeChars, h1, h2, if_false, decide_False, Bool.false_or, Bool.and_eq_true,
      decide_eq_true_eq, List.cons.injEq]
    constructor
    · rintro ⟨h, hrest⟩
      exact ⟨d, x1, ⟨rfl, rfl⟩, h, hrest⟩
    · rintro ⟨_, _, ⟨rfl, rfl⟩, h, hrest⟩
      exact ⟨h, hrest⟩

/-- A wildcard-free text followed by `%` matches exactly the texts that start with it, up
to ASCII case. -/
theorem likeChars_startsWith (s x : List Char) (hs : ∀ c ∈ s, c ≠ '%' ∧ c ≠ '_') :
    likeChars (s ++ ['%']) x = true ↔ s.map Char.toLower <+: x.map Char.toLower := by
  induction s generalizing x with
  | nil =>
    simp only [List.nil_append, likeChars_percent, List.map_nil, List.nil_prefix, iff_true,
      List.any_eq_true]
    exact ⟨[], (List.mem_tails _ _).mpr List.nil_suffix, by simp [likeChars]⟩
  | cons c s1 ih =>
    have hc := hs c (List.mem_cons_self c s1)
    have hs1 : ∀ e ∈ s1, e ≠ '%' ∧ e ≠ '_' := fun e he => hs e (List.mem_cons_of_mem c he)
    rw [List.cons_append, likeChars_cons c _ x hc.1 hc.2]
    constructor
    · rintro ⟨d, x1, rfl, hcd, hrest⟩
      simp only [List.map_cons, List.cons_prefix_cons]
      exact ⟨hcd, (ih x1 hs1).mp hrest⟩
    · intro h
      cases x with
      | nil => simp at h
      | cons d x1 =>
        simp only [List.map_cons, List.cons_prefix_cons] at h
        exact ⟨d, x1, rfl, h.1, (ih x1 hs1).mpr h.2⟩

/-- `%s%` for a wildcard-free `s` matches exactly the texts that contain `s`, up to ASCII
case. -/
theorem likeChars_containing (s x : List Char) (hs : ∀ c ∈ s, c ≠ '%' ∧ c ≠ '_') :
    likeChars ('%' :: (s ++ ['%'])) x = true ↔ s.map Char.toLower <:+: x.map Char.toLower := by
  rw [likeChars_percent, List.any_eq_true, List.infix_iff_prefix_suffix]
  constructor
  · rintro ⟨t, ht, hm⟩
    exact ⟨t.map Char.toLower, (likeChars_startsWith s t hs).mp hm,
      List.IsSuffix.map _ ((List.mem_tails _ _).mp ht)⟩
  · rintro ⟨u, hpre, v, hv⟩
    obtain ⟨a, b, hab, -, hb⟩ := List.map_eq_append_iff.mp hv.symm
    refine ⟨b, (List.mem_tails _ _).mpr ⟨a, hab.symm⟩, (likeChars_startsWith s b hs).mpr ?_⟩
    rw [hb]
    exact hpre

theorem sqlLike_contains (s x : String) (hs : ∀ c ∈ s.toList, c ≠ '%' ∧ c ≠ '_') :
    sqlLike (some x) (some ("%" ++ s ++ "%")) = true ↔ containsIgnoreCase s x := by
  have hpat : ("%" ++ s ++ "%").toList = '%' :: (s.toList ++ ['%']) := by
    simp [String.toList]
  unfold sqlLike containsIgnoreCase
  dsimp only
  rw [hpat]
  exact likeChars_containing s.toList x.toList hs

/-- For a search text without `%` and `_`, the code's search clause is the specification's
search condition. -/
theorem searchClause_iff_spec (s : String) (r : Post)
    (hs : ∀ c ∈ s.toList, c ≠ '%' ∧ c ≠ '_') :
    searchClause s r = true ↔ specSearchCondition s r := by
  unfold searchClause specSearchCondition
  rw [Bool.or_eq_true, Bool.or_eq_true, sqlLike_contains s r.title hs,
    sqlLike_contains s r.content hs, or_assoc]
  cases ht : r.tags with
  | none => simp [sqlLike]
  | some t => simp [sqlLike_contains s t hs]

/-- For a non-empty search text without `%` and `_`, and no category, `GET /api/posts`
returns exactly the posts the specification describes. -/
theorem getPosts_search_without_wildcards (db : Db) (s : String) (category0 : JsVal)
    (hne : s ≠ "") (hs : ∀ c ∈ s.toList, c ≠ '%' ∧ c ≠ '_')
    (hc0 : category0.truthy = false) :
    ∃ rows, getPosts db none (.str s) category0 = ⟨200, .posts rows⟩ ∧
      ∀ r, r ∈ rows ↔ r ∈ db.posts ∧ specSearchCondition s r := by
  have hst : (JsVal.str s).truthy = true := by simp [JsVal.truthy, hne]
  refine ⟨_, getPosts_search db (.str s) category0 hst hc0, ?_⟩
  intro r
  rw [(orderByCreatedAtDesc_perm _).mem_iff, List.mem_filter]
  exact and_congr_right fun _ => searchClause_iff_spec s r hs

/-! ## The query builder is parameterised -/

/-- C15: for every pair (search, category) the SQL text built by `GET /api/posts` depends
only on whether each of the two is truthy (for a string: non-empty), it is one of four fixed
statements, each of which the database runs with the parameter list built, the number of
`?` marks in the text is the length of the parameter list, and the parameters are three
times `%search%` when search is given followed by the category when it is given. -/
theorem buildListQuery_parameterised (search category : JsVal) :
    (∀ search2 category2 : JsVal, search2.truthy = search.truthy →
      category2.truthy = category.truthy →
      (buildListQuery search2 category2).1 = (buildListQuery search category).1) ∧
    (buildListQuery search category).1 ∈
      ["SELECT * FROM posts ORDER BY createdAt DESC",
       "SELECT * FROM posts WHERE (title LIKE ? OR content LIKE ? OR tags LIKE ?) ORDER BY createdAt DESC",
       "SELECT * FROM posts WHERE category = ? ORDER BY createdAt DESC",
       "SELECT * FROM posts WHERE (title LIKE ? OR content LIKE ? OR tags LIKE ?) AND category = ? ORDER BY createdAt DESC"] ∧
    (buildListQuery search category).1.toList.count '?'
      = (buildListQuery search category).2.length ∧
    (buildListQuery search category).2 =
      (if search.truthy then
          [some ("%" ++ search.toText ++ "%"), some ("%" ++ search.toText ++ "%"),
            some ("%" ++ search.toText ++ "%")]
        else []) ++ (if category.truthy then [category.bindText] else []) ∧
    (∀ rows : List Post, ∃ sel : List Post,
      dbAll none rows (buildListQuery search category).1 (buildListQuery search category).2
        = .ok sel) ∧
    (∀ s c : String,
      ((JsVal.str s).truthy = true ↔ s ≠ "") ∧ (JsVal.str s).toText = s ∧
      (JsVal.str c).bindText = some c) := by
  refine ⟨?_, ?_, ?_, ?_, ?_, ?_⟩
  · intro search2 category2 hs hc
    cases hs1 : search.truthy <;> cases hc1 : category.truthy <;>
      rw [hs1] at hs <;> rw [hc1] at hc
    · rw [buildListQuery_none _ _ hs hc, buildListQuery_none _ _ hs1 hc1]
    · rw [buildListQuery_category _ _ hs hc, buildListQuery_category _ _ hs1 hc1]
    · rw [buildListQuery_search _ _ hs hc, buildListQuery_search _ _ hs1 hc1]
    · rw [buildListQuery_both _ _ hs hc, buildListQuery_both _ _ hs1 hc1]
  · cases hs1 : search.truthy <;> cases hc1 : category.truthy
    · simp [buildListQuery_none _ _ hs1 hc1]
    · simp [buildListQuery_category _ _ hs1 hc1]
    · simp [buildListQuery_search _ _ hs1 hc1]
    · simp [buildListQuery_both _ _ hs1 hc1]
  · cases hs1 : search.truthy <;> cases hc1 : category.truthy
    · rw [buildListQuery_none _ _ hs1 hc1]; decide
    · rw [buildListQuery_category _ _ hs1 hc1]
      dsimp only [List.length_cons, List.length_nil]
      decide
    · rw [buildListQuery_search _ _ hs1 hc1]
      dsimp only [List.length_cons, List.length_nil]
      decide
    · rw [buildListQuery_both _ _ hs1 hc1]
      dsimp only [List.length_cons, List.length_nil]
      decide
  · cases hs1 : search.truthy <;> cases hc1 : category.truthy
    · simp [buildListQuery_none _ _ hs1 hc1]
    · simp [buildListQuery_category _ _ hs1 hc1]
    · simp [buildListQuery_search _ _ hs1 hc1]
    · simp [buildListQuery_both _ _ hs1 hc1]
  · intro rows
    cases hs1 : search.truthy <;> cases hc1 : category.truthy
    · simp [buildListQuery_none _ _ hs1 hc1, dbAll]
    · simp [buildListQuery_category _ _ hs1 hc1, dbAll]
    · simp [buildListQuery_search _ _ hs1 hc1, dbAll]
    · simp [buildListQuery_both _ _ hs1 hc1, dbAll]
  · intro s c
    simp [JsVal.truthy, JsVal.toText, JsVal.bindText]

/-- C15 at two concrete filters that agree on which parts are given. -/
theorem buildListQuery_parameterised_witness :
    (buildListQuery (.str "x' OR 1=1 --") (.str "Tech")).1
      = (buildListQuery (.str "ai") (.str "Life")).1 ∧
    (buildListQuery (.str "ai") (.str "Life")).1.toList.count '?' = 4 ∧
    (buildListQuery (.str "ai") (.str "Life")).2
      = [some "%ai%", some "%ai%", some "%ai%", some "Life"] :=
  ⟨(buildListQuery_parameterised (.str "ai") (.str "Life")).1 _ _ rfl rfl,
    by decide, by decide⟩

/-! ## The listening port -/

/-- C13, at a failing input: with `PORT=8080` in the environment the constant `PORT` is
`8080`, but the server listens on 3000, as it does in every environment, because
`app.listen` is called with the literal 3000. -/
theorem listenPort_ignores_PORT :
    PORT ⟨.str "8080"⟩ = .str "8080" ∧
    listenPort ⟨.str "8080"⟩ = .num 3000 ∧
    listenPort ⟨.str "8080"⟩ ≠ PORT ⟨.str "8080"⟩ ∧
    (∀ env : ProcessEnv, listenPort env = .num 3000) ∧
    listenPort ⟨.undefined⟩ = PORT ⟨.undefined⟩ := by
  refine ⟨by decide, rfl, by decide, fun _ => rfl, by decide⟩

/-! ## The storage invariant -/

theorem toDigitsCore_ne_nil (b f n : Nat) (ds : List Char) (h : ds ≠ []) :
    Nat.toDigitsCore b f n ds ≠ [] := by
  induction f generalizing n ds with
  | zero => simpa [Nat.toDigitsCore] using h
  | succ f ih =>
    simp only [Nat.toDigitsCore]
    split
    · simp
    · exact ih _ _ (by simp)

theorem nat_repr_ne_empty (n : Nat) : Nat.repr n ≠ "" := by
  unfold Nat.repr Nat.toDigits
  intro h
  have h2 := congrArg String.data h
  simp only [List.asString] at h2
  simp only [Nat.toDigitsCore] at h2
  split at h2
  · simp at h2
  · exact toDigitsCore_ne_nil _ _ _ _ (by simp) h2

theorem int_toString_ne_empty (n : Int) : toString n ≠ "" := by
  cases n with
  | ofNat m =>
    show Nat.repr m ≠ ""
    exact nat_repr_ne_empty m
  | negSucc m =>
    intro h
    have h2 := congrArg String.data h
    have : (toString (Int.negSucc m)) = "-" ++ Nat.repr (m + 1) := rfl
    rw [this] at h2
    simp at h2

/-- A truthy value is bound as a text. -/
theorem bindText_of_truthy (v : JsVal) (h : v.truthy = true) :
    ∃ s, v.bindText = some s := by
  cases v <;> simp [JsVal.truthy, JsVal.bindText] at h ⊢

/-- A truthy value is bound as a non-empty text. -/
theorem bindText_ne_empty (v : JsVal) (s : String) (h : v.truthy = true)
    (hs : v.bindText = some s) : s ≠ "" := by
  cases v with
  | undefined => simp [JsVal.truthy] at h
  | null => simp [JsVal.truthy] at h
  | bool b =>
    simp only [JsVal.truthy] at h
    subst h
    simp only [JsVal.bindText, if_true, Option.some.injEq] at hs
    subst hs
    decide
  | num n =>
    simp only [JsVal.bindText, Option.some.injEq] at hs
    subst hs
    exact int_toString_ne_empty n
  | str x =>
    simp only [JsVal.bindText, Option.some.injEq] at hs
    subst hs
    simpa [JsVal.truthy] using h
  | object x =>
    simp only [JsVal.bindText, Option.some.injEq] at hs
    subst hs
    decide

/-- The table after `POST /api/posts`: unchanged, or one row appended that carries the
bound texts of the validated fields and the time of the request in both timestamps. -/
theorem createPost_posts (db : Db) (now : Nat) (f1 f2 : Option String) (body : PostBody) :
    (createPost db now f1 f2 body).2.posts = db.posts ∨
    ∃ t c a g, body.title.truthy = true ∧ body.content.truthy = true ∧
      body.authorId.truthy = true ∧ body.category.truthy = true ∧
      body.title.bindText = some t ∧ body.content.bindText = some c ∧
      body.authorId.bindText = some a ∧ body.category.bindText = some g ∧
      (createPost db now f1 f2 body).2.posts =
        db.posts ++ [⟨nextRowid db, t, c, a, g, (jsOr body.tags (.str "")).bindText,
          now, now⟩] := by
  unfold createPost
  by_cases hv : (!body.title.truthy || !body.content.truthy || !body.authorId.truthy
      || !body.category.truthy) = true
  · left
    rw [if_pos hv]
  · rw [if_neg hv]
    simp only [Bool.or_eq_true, Bool.not_eq_true', not_or, Bool.not_eq_false] at hv
    obtain ⟨⟨⟨h1, h2⟩, h3⟩, h4⟩ := hv
    obtain ⟨t, ht⟩ := bindText_of_truthy _ h1
    obtain ⟨c, hc⟩ := bindText_of_truthy _ h2
    obtain ⟨a, ha⟩ := bindText_of_truthy _ h3
    obtain ⟨g, hg⟩ := bindText_of_truthy _ h4
    cases f1 with
    | some e =>
      left
      simp [dbRunInsert]
    | none =>
      right
      refine ⟨t, c, a, g, h1, h2, h3, h4, ht, hc, ha, hg, ?_⟩
      simp only [dbRunInsert, ht, hc, ha, hg]
      cases f2 <;> simp [dbGet]

/-- The table after `PUT /api/posts/:id`: unchanged, or the rows of one id rewritten with
the bound texts of the validated fields and the time of the request as `updatedAt`. -/
theorem updatePost_posts (db : Db) (now : Nat) (f1 f2 : Option String) (id : Option Nat)
    (body : PostBody) :
    (updatePost db now f1 f2 id body).2.posts = db.posts ∨
    ∃ t c a g i, body.title.truthy = true ∧ body.content.truthy = true ∧
      body.authorId.truthy = true ∧ body.category.truthy = true ∧
      body.title.bindText = some t ∧ body.content.bindText = some c ∧
      body.authorId.bindText = some a ∧ body.category.bindText = some g ∧
      (updatePost db now f1 f2 id body).2.posts =
        db.posts.map fun r =>
          if r.id == i then
            { r with title := t, content := c, authorId := a, category := g,
                     tags := (jsOr body.tags (.str "")).bindText, updatedAt := now }
          else r := by
  unfold updatePost
  by_cases hv : (!body.title.truthy || !body.content.truthy || !body.authorId.truthy
      || !body.category.truthy) = true
  · left
    rw [if_pos hv]
  · rw [if_neg hv]
    simp only [Bool.or_eq_true, Bool.not_eq_true', not_or, Bool.not_eq_false] at hv
    obtain ⟨⟨⟨h1, h2⟩, h3⟩, h4⟩ := hv
    obtain ⟨t, ht⟩ := bindText_of_truthy _ h1
    obtain ⟨c, hc⟩ := bindText_of_truthy _ h2
    obtain ⟨a, ha⟩ := bindText_of_truthy _ h3
    obtain ⟨g, hg⟩ := bindText_of_truthy _ h4
    cases f1 with
    | some e =>
      left
      simp [dbRunUpdate]
    | none =>
      cases id with
      | none =>
        left
        simp [dbRunUpdate]
      | some i =>
        by_cases hcount : db.posts.countP (fun r => r.id == i) = 0
        · left
          simp only [dbRunUpdate, hcount, if_true]
        · right
          refine ⟨t, c, a, g, i, h1, h2, h3, h4, ht, hc, ha, hg, ?_⟩
          simp only [dbRunUpdate, ht, hc, ha, hg, if_neg hcount]
          cases f2 <;> simp [dbGet]

/-- The table after `DELETE /api/posts/:id` holds only rows it held before. -/
theorem deletePost_posts (db : Db) (f : Option String) (id : Option Nat) (p : Post)
    (hp : p ∈ (deletePost db f id).2.posts) : p ∈ db.posts := by
  unfold deletePost dbRunDelete at hp
  cases f with
  | some e => simpa using hp
  | none =>
    cases id with
    | none => simpa using hp
    | some i =>
      dsimp only at hp
      split at hp
      · exact (List.mem_filter.mp hp).1
      · exact (List.mem_filter.mp hp).1

/-- One request served no earlier than `start` keeps every row's `createdAt` at most its
`updatedAt`, and its `updatedAt` at most the time of the request. -/
theorem serve_timestamps (db : Db) (start now : Nat) (f1 f2 : Option String)
    (req : ApiRequest) (hle : start ≤ now)
    (hdb : ∀ p ∈ db.posts, p.createdAt ≤ p.updatedAt ∧ p.updatedAt ≤ start) :
    ∀ p ∈ (serve db now f1 f2 req).2.posts, p.createdAt ≤ p.updatedAt ∧ p.updatedAt ≤ now := by
  have hold : ∀ p ∈ db.posts, p.createdAt ≤ p.updatedAt ∧ p.updatedAt ≤ now :=
    fun p hp => ⟨(hdb p hp).1, Nat.le_trans (hdb p hp).2 hle⟩
  intro p hp
  cases req with
  | create body =>
    simp only [serve] at hp
    rcases createPost_posts db now f1 f2 body with h | ⟨t, c, a, g, -, -, -, -, -, -, -, -, h⟩
    · rw [h] at hp
      exact hold p hp
    · rw [h] at hp
      rcases List.mem_append.mp hp with h1 | h1
      · exact hold p h1
      · rw [List.mem_singleton.mp h1]
        exact ⟨Nat.le_refl now, Nat.le_refl now⟩
  | update id body =>
    simp only [serve] at hp
    rcases updatePost_posts db now f1 f2 id body with
      h | ⟨t, c, a, g, i, -, -, -, -, -, -, -, -, h⟩
    · rw [h] at hp
      exact hold p hp
    · rw [h] at hp
      obtain ⟨r, hr, hrp⟩ := List.mem_map.mp hp
      by_cases hid : (r.id == i) = true
      · rw [if_pos hid] at hrp
        subst hrp
        exact ⟨Nat.le_trans (hold r hr).1 (hold r hr).2, Nat.le_refl now⟩
      · rw [if_neg hid] at hrp
        subst hrp
        exact hold r hr
  | delete id =>
    simp only [serve] at hp
    exact hold p (deletePost_posts db f1 id p hp)

/-- One request, whatever its body, keeps the required fields of every row non-empty. -/
theorem serve_requiredNonEmpty (db : Db) (now : Nat) (f1 f2 : Option String)
    (req : ApiRequest) (hdb : ∀ p ∈ db.posts, p.requiredNonEmpty) :
    ∀ p ∈ (serve db now f1 f2 req).2.posts, p.requiredNonEmpty := by
  intro p hp
  cases req with
  | create body =>
    simp only [serve] at hp
    rcases createPost_posts db now f1 f2 body with
      h | ⟨t, c, a, g, h1, h2, h3, h4, ht, hc, ha, hg, h⟩
    · rw [h] at hp
      exact hdb p hp
    · rw [h] at hp
      rcases List.mem_append.mp hp with hq | hq
      · exact hdb p hq
      · rw [List.mem_singleton.mp hq]
        exact ⟨bindText_ne_empty _ t h1 ht, bindText_ne_empty _ c h2 hc,
          bindText_ne_empty _ a h3 ha, bindText_ne_empty _ g h4 hg⟩
  | update id body =>
    simp only [serve] at hp
    rcases updatePost_posts db now f1 f2 id body with
      h | ⟨t, c, a, g, i, h1, h2, h3, h4, ht, hc, ha, hg, h⟩
    · rw [h] at hp
      exact hdb p hp
    · rw [h] at hp
      obtain ⟨r, hr, hrp⟩ := List.mem_map.mp hp
      by_cases hid : (r.id == i) = true
      · rw [if_pos hid] at hrp
        subst hrp
        exact ⟨bindText_ne_empty _ t h1 ht, bindText_ne_empty _ c h2 hc,
          bindText_ne_empty _ a h3 ha, bindText_ne_empty _ g h4 hg⟩
      · rw [if_neg hid] at hrp
        subst hrp
        exact hdb r hr
  | delete id =>
    simp only [serve] at hp
    exact hdb p (deletePost_posts db f1 id p hp)

theorem serveAll_timestamps (arrivals : List Arrival) (db : Db) (start : Nat)
    (hmono : clockMonotone start arrivals)
    (hdb : ∀ p ∈ db.posts, p.createdAt ≤ p.updatedAt ∧ p.updatedAt ≤ start) :
    ∀ p ∈ (serveAll db arrivals).posts, p.createdAt ≤ p.updatedAt := by
  induction arrivals generalizing db start with
  | nil => exact fun p hp => (hdb p hp).1
  | cons a rest ih =>
    exact ih _ a.now hmono.2
      (serve_timestamps db start a.now a.fault1 a.fault2 a.request hmono.1 hdb)

theorem serveAll_requiredNonEmpty (arrivals : List Arrival) (db : Db)
    (hdb : ∀ p ∈ db.posts, p.requiredNonEmpty) :
    ∀ p ∈ (serveAll db arrivals).posts, p.requiredNonEmpty := by
  induction arrivals generalizing db with
  | nil => exact hdb
  | cons a rest ih =>
    exact ih _ (serve_requiredNonEmpty db a.now a.fault1 a.fault2 a.request hdb)

/-- The rows of the seeded table have non-empty required fields and the seeding time in
both timestamps. -/
theorem seeded_posts (seq start : Nat) (fault : Option String) :
    ∀ p ∈ (checkAndInsertSampleData ⟨[], seq⟩ fault start).posts,
      p.requiredNonEmpty ∧ p.createdAt = start ∧ p.updatedAt = start := by
  cases fault with
  | some e => simp [checkAndInsertSampleData]
  | none =>
    intro p hp
    simp only [checkAndInsertSampleData, insertSampleData, samplePosts, List.length_nil,
      if_true, List.foldl_cons, List.foldl_nil, dbRunInsert, JsVal.bindText,
      List.nil_append, List.cons_append, List.mem_cons, List.mem_singleton,
      List.not_mem_nil, or_false] at hp
    rcases hp with h | h <;> subst h <;>
      exact ⟨⟨by simp, by simp, by simp, by simp⟩, rfl, rfl⟩

/-- C11: in every table reached from an empty table by the server's seeding at time
`start` and any sequence of Create, Update and Delete requests, with arbitrary bodies and
storage failures, served with a clock that does not go backwards, every stored post has
non-empty title, content, authorId and category, and `updatedAt >= createdAt`. -/
theorem storage_invariant (seq start : Nat) (fault : Option String)
    (arrivals : List Arrival) (hmono : clockMonotone start arrivals) :
    ∀ p ∈ (serveAll (checkAndInsertSampleData ⟨[], seq⟩ fault start) arrivals).posts,
      p.requiredNonEmpty ∧ p.createdAt ≤ p.updatedAt := by
  intro p hp
  constructor
  · exact serveAll_requiredNonEmpty arrivals _
      (fun q hq => (seeded_posts seq start fault q hq).1) p hp
  · refine serveAll_timestamps arrivals _ start hmono ?_ p hp
    intro q hq
    obtain ⟨-, h1, h2⟩ := seeded_posts seq start fault q hq
    rw [h1, h2]
    exact ⟨Nat.le_refl start, Nat.le_refl start⟩

/-- C11 at a concrete run: seeding at time 0, then a Create whose title is an array, an
Update of post 1 with a number as content, and a Delete of post 2. -/
theorem storage_invariant_witness :
    clockMonotone 0
      [⟨1, none, none, .create ⟨.object "", .str "c", .str "a", .str "g", .undefined⟩⟩,
       ⟨2, none, none, .update (some 1) ⟨.str "t", .num 5, .str "a", .str "g", .null⟩⟩,
       ⟨2, none, none, .delete (some 2)⟩] ∧
    ∀ p ∈ (serveAll (checkAndInsertSampleData ⟨[], 0⟩ none 0)
        [⟨1, none, none, .create ⟨.object "", .str "c", .str "a", .str "g", .undefined⟩⟩,
         ⟨2, none, none, .update (some 1) ⟨.str "t", .num 5, .str "a", .str "g", .null⟩⟩,
         ⟨2, none, none, .delete (some 2)⟩]).posts,
      p.requiredNonEmpty ∧ p.createdAt ≤ p.updatedAt :=
  ⟨by simp [clockMonotone],
    storage_invariant 0 0 none _ (by simp [clockMonotone])⟩

/-! ## Escaping in the client markup -/

/-- The text `escapeHtml` returns holds no `<` and no `>`. -/
theorem escapeHtml_no_angle (text : String) :
    ∀ c ∈ (escapeHtml text).toList, c ≠ '<' ∧ c ≠ '>' := by
  intro c hc
  simp only [escapeHtml, String.toList, List.mem_flatMap] at hc
  obtain ⟨d, -, hd⟩ := hc
  unfold escapeChar at hd
  split at hd
  · revert c; decide
  · split at hd
    · revert c; decide
    · split at hd
      · revert c; decide
      · split at hd
        · revert c; decide
        · rw [List.mem_singleton.mp hd]
          constructor <;> assumption

/-- C12, at a failing input: for a post whose tags field is
`<img src=x onerror=alert(1)>`, the markup built by `createPostHTML` and the markup built
by `showPostModal` both contain the tag text as it is, inside `<span class="tag">`, and not
the form `escapeHtml` gives it: the tags are inserted after `trim()` only. -/
theorem tags_inserted_unescaped :
    "<span class=\"tag\"><img src=x onerror=alert(1)></span>".toList <:+:
      (createPostHTML (fun _ => "1/1/2025")
        ⟨7, "T", "C", "ann", "Tech", some "<img src=x onerror=alert(1)>", 5, 5⟩).toList ∧
    "<span class=\"tag\"><img src=x onerror=alert(1)></span>".toList <:+:
      (showPostModal (fun _ => "1/1/2025")
        ⟨7, "T", "C", "ann", "Tech", some "<img src=x onerror=alert(1)>", 5, 5⟩).toList ∧
    escapeHtml "<img src=x onerror=alert(1)>" = "&lt;img src=x onerror=alert(1)&gt;" ∧
    ¬ (escapeHtml "<img src=x onerror=alert(1)>").toList <:+:
      (createPostHTML (fun _ => "1/1/2025")
        ⟨7, "T", "C", "ann", "Tech", some "<img src=x onerror=alert(1)>", 5, 5⟩).toList ∧
    ¬ (escapeHtml "<img src=x onerror=alert(1)>").toList <:+:
      (showPostModal (fun _ => "1/1/2025")
        ⟨7, "T", "C", "ann", "Tech", some "<img src=x onerror=alert(1)>", 5, 5⟩).toList := by
  refine ⟨by decide!, by decide!, by decide!, by decide!,
    by decide!⟩

/-! ## Form submission in the client -/

/-- C14: `handleFormSubmit` as a step on the fields of the `PostManager`.  With the edit
target set to an id `e` the only request that is not a `GET` is one `PUT` to `/posts/e`
carrying the form data, and with no edit target it is one `POST` to `/posts`.  When that
request is answered with a success status, the edit target is `null` afterwards, the
requests made are that request followed by one `GET` of `/posts` without query, and the
posts cache is what that `GET` returned when it succeeded.  When it is answered with a
non-success status, or not answered at all, the fields are unchanged and no further request
is made. -/
theorem handleFormSubmit_step (fetch : FetchRequest → FetchResult) (m : PostManager)
    (postData : PostBody) (first : FetchRequest)
    (hfirst : first =
      if m.currentEditId.truthy then
        ⟨.PUT, m.apiBaseUrl ++ "/posts/" ++ m.currentEditId.toText, some postData⟩
      else ⟨.POST, m.apiBaseUrl ++ "/posts", some postData⟩) :
    (∀ e : String, m.currentEditId = .str e → e ≠ "" →
      (m.handleFormSubmit fetch postData).requests.filter (fun r => r.method != .GET)
        = [⟨.PUT, m.apiBaseUrl ++ "/posts/" ++ e, some postData⟩]) ∧
    (m.currentEditId = .null →
      (m.handleFormSubmit fetch postData).requests.filter (fun r => r.method != .GET)
        = [⟨.POST, m.apiBaseUrl ++ "/posts", some postData⟩]) ∧
    (∀ status json, fetch first = .response status json → responseOk status = true →
      (m.handleFormSubmit fetch postData).manager.currentEditId = .null ∧
      (m.handleFormSubmit fetch postData).requests
        = [first, ⟨.GET, m.apiBaseUrl ++ "/posts", none⟩] ∧
      (∀ status2 value,
        fetch ⟨.GET, m.apiBaseUrl ++ "/posts", none⟩ = .response status2 (some value) →
        responseOk status2 = true →
        (m.handleFormSubmit fetch postData).manager.posts = value)) ∧
    (∀ status json, fetch first = .response status json → responseOk status = false →
      (m.handleFormSubmit fetch postData).manager = m ∧
      (m.handleFormSubmit fetch postData).requests = [first]) ∧
    (∀ message, fetch first = .rejected message →
      (m.handleFormSubmit fetch postData).manager = m ∧
      (m.handleFormSubmit fetch postData).requests = [first]) := by
  refine ⟨?_, ?_, ?_, ?_, ?_⟩
  · intro e he hne
    have ht : m.currentEditId.truthy = true := by simp [he, JsVal.truthy, hne]
    have htext : m.currentEditId.toText = e := by simp [he, JsVal.toText]
    simp only [PostManager.handleFormSubmit, ht, if_true, PostManager.updatePost, htext]
    cases fetch ⟨.PUT, m.apiBaseUrl ++ "/posts/" ++ e, some postData⟩ with
    | rejected msg => simp
    | response status json =>
      cases hok : responseOk status
      · simp [hok]
      · simp only [hok, Bool.not_true, Bool.false_eq_true, if_false, PostManager.resetForm,
          PostManager.loadPosts]
        cases fetch ⟨.GET, m.apiBaseUrl ++ "/posts", none⟩ with
        | rejected msg => simp
        | response status2 json2 =>
          cases hok2 : responseOk status2 <;> cases json2 <;> simp [hok2]
  · intro he
    have ht : m.currentEditId.truthy = false := by simp [he, JsVal.truthy]
    simp only [PostManager.handleFormSubmit, ht, Bool.false_eq_true, if_false,
      PostManager.createPost]
    cases fetch ⟨.POST, m.apiBaseUrl ++ "/posts", some postData⟩ with
    | rejected msg => simp
    | response status json =>
      cases hok : responseOk status
      · simp [hok]
      · simp only [hok, Bool.not_true, Bool.false_eq_true, if_false, PostManager.resetForm,
          PostManager.loadPosts]
        cases fetch ⟨.GET, m.apiBaseUrl ++ "/posts", none⟩ with
        | rejected msg => simp
        | response status2 json2 =>
          cases hok2 : responseOk status2 <;> cases json2 <;> simp [hok2]
  · intro status json hres hok
    cases ht : m.currentEditId.truthy
    · simp only [ht, Bool.false_eq_true, if_false] at hfirst
      subst hfirst
      simp only [PostManager.handleFormSubmit, ht, Bool.false_eq_true, if_false,
        PostManager.createPost, hres, hok, Bool.not_true, PostManager.resetForm,
        PostManager.loadPosts]
      cases hget : fetch ⟨.GET, m.apiBaseUrl ++ "/posts", none⟩ with
      | rejected msg => simp
      | response status2 json2 =>
        cases hok2 : responseOk status2 <;> cases json2 <;> simp [hok2]
    · simp only [ht, if_true] at hfirst
      subst hfirst
      simp only [PostManager.handleFormSubmit, ht, if_true,
        PostManager.updatePost, hres, hok, Bool.not_true, Bool.false_eq_true, if_false,
        PostManager.resetForm, PostManager.loadPosts]
      cases hget : fetch ⟨.GET, m.apiBaseUrl ++ "/posts", none⟩ with
      | rejected msg => simp
      | response status2 json2 =>
        cases hok2 : responseOk status2 <;> cases json2 <;> simp [hok2]
  · intro status json hres hok
    cases ht : m.currentEditId.truthy
    · simp only [ht, Bool.false_eq_true, if_false] at hfirst
      subst hfirst
      simp [PostManager.handleFormSubmit, ht, PostManager.createPost, hres, hok]
    · simp only [ht, if_true] at hfirst
      subst hfirst
      simp [PostManager.handleFormSubmit, ht, PostManager.updatePost, hres, hok]
  · intro message hres
    cases ht : m.currentEditId.truthy
    · simp only [ht, Bool.false_eq_true, if_false] at hfirst
      subst hfirst
      simp [PostManager.handleFormSubmit, ht, PostManager.createPost, hres]
    · simp only [ht, if_true] at hfirst
      subst hfirst
      simp [PostManager.handleFormSubmit, ht, PostManager.updatePost, hres]

/-- C14 at a concrete step: with edit target `1`, base URL `/api` and a server that answers
every request with status 200, the form is sent by `PUT /api/posts/1`, the list is reloaded
by `GET /api/posts`, and the edit target is `null` afterwards. -/
theorem handleFormSubmit_step_witness :
    (PostManager.handleFormSubmit (fun _ => .response 200 (some (.posts [])))
        ⟨.posts [], .str "1", "/api"⟩
        ⟨.str "T", .str "C", .str "A", .str "G", .str ""⟩).manager.currentEditId = .null ∧
    (PostManager.handleFormSubmit (fun _ => .response 200 (some (.posts [])))
        ⟨.posts [], .str "1", "/api"⟩
        ⟨.str "T", .str "C", .str "A", .str "G", .str ""⟩).requests
      = [⟨.PUT, "/api/posts/1", some ⟨.str "T", .str "C", .str "A", .str "G", .str ""⟩⟩,
         ⟨.GET, "/api/posts", none⟩] :=
  have h := (handleFormSubmit_step (fun _ => .response 200 (some (.posts [])))
    ⟨.posts [], .str "1", "/api"⟩ ⟨.str "T", .str "C", .str "A", .str "G", .str ""⟩
    ⟨.PUT, "/api/posts/1", some ⟨.str "T", .str "C", .str "A", .str "G", .str ""⟩⟩
    (by decide)).2.2.1 200 (some (.posts [])) rfl (by decide)
  ⟨h.1, h.2.1.trans (by decide)⟩

/-! ## Search combined with category -/

/-- C2, at a failing input: with one stored post titled "100 days of code" in category
`Tech`, `GET /api/posts` with category `Tech` and search `100%`, and likewise with search
`_`, returns that post, although none of its title, content and tags contains `100%` or `_`
as a substring, so the post does not satisfy the search condition: the `%` and `_` of the
search text act as `LIKE` wildcards in the combined query as well. -/
theorem getPosts_search_and_category_wildcard :
    getPosts ⟨[⟨1, "100 days of code", "notes", "ann", "Tech", some "", 5, 5⟩], 1⟩ none
        (.str "100%") (.str "Tech")
      = ⟨200, .posts [⟨1, "100 days of code", "notes", "ann", "Tech", some "", 5, 5⟩]⟩ ∧
    ¬ (specSearchCondition "100%"
          ⟨1, "100 days of code", "notes", "ann", "Tech", some "", 5, 5⟩ ∧
        (⟨1, "100 days of code", "notes", "ann", "Tech", some "", 5, 5⟩ : Post).category
          = "Tech") ∧
    getPosts ⟨[⟨1, "100 days of code", "notes", "ann", "Tech", some "", 5, 5⟩], 1⟩ none
        (.str "_") (.str "Tech")
      = ⟨200, .posts [⟨1, "100 days of code", "notes", "ann", "Tech", some "", 5, 5⟩]⟩ ∧
    ¬ (specSearchCondition "_"
          ⟨1, "100 days of code", "notes", "ann", "Tech", some "", 5, 5⟩ ∧
        (⟨1, "100 days of code", "notes", "ann", "Tech", some "", 5, 5⟩ : Post).category
          = "Tech") := by
  refine ⟨?_, ?_, ?_, ?_⟩ <;> decide

/-- For a non-empty search text without `%` and `_` and a non-empty category,
`GET /api/posts` returns exactly the posts that satisfy the specification's search
condition and have that category. -/
theorem getPosts_both_without_wildcards (db : Db) (s c : String)
    (hne : s ≠ "") (hs : ∀ x ∈ s.toList, x ≠ '%' ∧ x ≠ '_') (hc : c ≠ "") :
    ∃ rows, getPosts db none (.str s) (.str c) = ⟨200, .posts rows⟩ ∧
      ∀ r, r ∈ rows ↔ r ∈ db.posts ∧ specSearchCondition s r ∧ r.category = c := by
  have hst : (JsVal.str s).truthy = true := by simp [JsVal.truthy, hne]
  have hct : (JsVal.str c).truthy = true := by simp [JsVal.truthy, hc]
  refine ⟨_, getPosts_both db (.str s) (.str c) hst hct, ?_⟩
  intro r
  rw [(orderByCreatedAtDesc_perm _).mem_iff, List.mem_filter]
  simp only [JsVal.toText, JsVal.bindText, Bool.and_eq_true, decide_eq_true_eq,
    Option.some.injEq]
  rw [searchClause_iff_spec s r hs]

end PostServer
